import Mathlib

/-!
Verification development for the chunked terrain generation and streaming
subsystem of the repository (Bevy RTS game).

Shallow embedding conventions:
* `f32`/`f64` scalar values are modelled as exact rationals (`ℚ`); the casts
  `as_ivec2` / `as_uvec2` (truncation toward zero, saturating at 0 for `u32`)
  are modelled by `ratTrunc` / `ratTruncToNat`.
* `u32`/`i32`/`usize` values are modelled as `ℕ`/`ℤ` (no overflow is exercised
  by the properties below).
* Rust `Vec2`, `UVec2`, `IVec2` become pairs.
* Rust `/` on signed integers is truncating division (`Int.tdiv`); `rem_euclid`
  is Euclidean remainder (Lean `%` on `ℤ`).
-/

/-- Truncation toward zero of a rational, the semantics of Rust `as i32`
applied to a (finite, in-range) float value. -/
def ratTrunc (q : ℚ) : ℤ := if q < 0 then -⌊-q⌋ else ⌊q⌋

/-- Rust `as u32` applied to a (finite, in-range) float value: truncation
toward zero, saturating at 0 for negative inputs. -/
def ratTruncToNat (q : ℚ) : ℕ := (ratTrunc q).toNat

theorem ratTrunc_of_nonneg {q : ℚ} (h : 0 ≤ q) : ratTrunc q = ⌊q⌋ := by
  unfold ratTrunc
  rw [if_neg (not_lt.mpr h)]

/-!
## Coordinate system — `src/helpers/geometry.rs`

All functions are parameterized by the chunk size in tiles (`size : ℕ × ℕ`)
and the tile size in world units (`tile_size : ℚ × ℚ`).
-/

/-- `chunk_coord_to_world_pos`: the chunk extent is `size * tile_size`;
a chunk's world position is `chunk_coord * extent`. -/
def chunk_coord_to_world_pos (c : ℤ × ℤ) (size : ℕ × ℕ) (ts : ℚ × ℚ) : ℚ × ℚ :=
  let cs : ℚ × ℚ := ((size.1 : ℚ) * ts.1, (size.2 : ℚ) * ts.2)
  ((c.1 : ℚ) * cs.1, (c.2 : ℚ) * cs.2)

/-- `world_pos_to_chunk_coord`: shift by half an extent, divide by the extent,
cast with `as_ivec2` (truncation toward zero) and subtract 1 on an axis whose
shifted coordinate is negative. -/
def world_pos_to_chunk_coord (p : ℚ × ℚ) (size : ℕ × ℕ) (ts : ℚ × ℚ) : ℤ × ℤ :=
  let cs : ℚ × ℚ := ((size.1 : ℚ) * ts.1, (size.2 : ℚ) * ts.2)
  let w : ℚ × ℚ := (p.1 + cs.1 / 2, p.2 + cs.2 / 2)
  let delta : ℤ × ℤ := (if w.1 < 0 then 1 else 0, if w.2 < 0 then 1 else 0)
  (ratTrunc (w.1 / cs.1) - delta.1, ratTrunc (w.2 / cs.2) - delta.2)

/-- `world_pos_to_tile_coord`: offset from the containing chunk's lower corner
divided by the tile size, cast with `as_uvec2`. -/
def world_pos_to_tile_coord (p : ℚ × ℚ) (size : ℕ × ℕ) (ts : ℚ × ℚ) : ℕ × ℕ :=
  let c := world_pos_to_chunk_coord p size ts
  let cp := chunk_coord_to_world_pos c size ts
  let chunkStart : ℚ × ℚ :=
    (cp.1 - (size.1 : ℚ) * ts.1 / 2, cp.2 - (size.2 : ℚ) * ts.2 / 2)
  let off : ℚ × ℚ := (p.1 - chunkStart.1, p.2 - chunkStart.2)
  (ratTruncToNat (off.1 / ts.1), ratTruncToNat (off.2 / ts.2))

/-- `global_coord_to_tile_coord`: centered wrap by Euclidean remainder.
`size / 2` is the `u32` (i.e. `ℕ`) division of the source. -/
def global_coord_to_tile_coord (g : ℤ × ℤ) (size : ℕ × ℕ) : ℕ × ℕ :=
  (((g.1 + ((size.1 / 2 : ℕ) : ℤ)) % (size.1 : ℤ)).toNat,
   ((g.2 + ((size.2 / 2 : ℕ) : ℤ)) % (size.2 : ℤ)).toNat)

/-- `tile_coord_to_global_coord`: `chunk_coord * size + tile_coord - size / 2`
(the `i32` division `size.as_ivec2() / 2` of a nonnegative value equals the
`ℕ` division). -/
def tile_coord_to_global_coord (t : ℕ × ℕ) (c : ℤ × ℤ) (size : ℕ × ℕ) : ℤ × ℤ :=
  (c.1 * (size.1 : ℤ) + (t.1 : ℤ) - ((size.1 / 2 : ℕ) : ℤ),
   c.2 * (size.2 : ℤ) + (t.2 : ℤ) - ((size.2 / 2 : ℕ) : ℤ))

/-- `global_coord_to_chunk_coord`: remove the tile offset and divide by the
chunk size with Rust `i32` (truncating) division. -/
def global_coord_to_chunk_coord (g : ℤ × ℤ) (size : ℕ × ℕ) : ℤ × ℤ :=
  let t := global_coord_to_tile_coord g size
  (Int.tdiv (g.1 + ((size.1 / 2 : ℕ) : ℤ) - (t.1 : ℤ)) (size.1 : ℤ),
   Int.tdiv (g.2 + ((size.2 / 2 : ℕ) : ℤ) - (t.2 : ℤ)) (size.2 : ℤ))

/-!
### One-dimensional helper lemmas for the coordinate proofs
-/

/-- One axis of `world_pos_to_chunk_coord`. -/
def chunkCoordAxis (p ext : ℚ) : ℤ :=
  ratTrunc ((p + ext / 2) / ext) - (if p + ext / 2 < 0 then 1 else 0)

theorem world_pos_to_chunk_coord_axes (p : ℚ × ℚ) (size : ℕ × ℕ) (ts : ℚ × ℚ) :
    world_pos_to_chunk_coord p size ts =
      (chunkCoordAxis p.1 ((size.1 : ℚ) * ts.1), chunkCoordAxis p.2 ((size.2 : ℚ) * ts.2)) := rfl

/-- The shifted coordinate is a negative exact multiple of the extent: the
single family of inputs on which the delta correction overshoots the floor. -/
def NegBoundary (p ext : ℚ) : Prop :=
  p + ext / 2 < 0 ∧ ∃ m : ℤ, p + ext / 2 = m * ext

/-- Away from `NegBoundary` inputs, the axis function computes the floor of
the shifted coordinate divided by the extent. -/
theorem chunkCoordAxis_eq_floor {p ext : ℚ} (hext : 0 < ext)
    (hb : ¬ NegBoundary p ext) : chunkCoordAxis p ext = ⌊(p + ext / 2) / ext⌋ := by
  set w := p + ext / 2 with hw
  unfold chunkCoordAxis
  rw [← hw]
  by_cases hneg : w < 0
  · rw [if_pos hneg]
    have hwe : w / ext < 0 := div_neg_of_neg_of_pos hneg hext
    have hnotint : ((⌊w / ext⌋ : ℚ)) ≠ w / ext := by
      intro hint
      apply hb
      refine ⟨hneg, ⌊w / ext⌋, ?_⟩
      field_simp at hint
      linarith [hint]
    have hlt : ((⌊w / ext⌋ : ℚ)) < w / ext :=
      lt_of_le_of_ne (Int.floor_le _) hnotint
    have h1 : ratTrunc (w / ext) = ⌈w / ext⌉ := by
      unfold ratTrunc
      rw [if_pos hwe, Int.floor_neg, neg_neg]
    have h2 : ⌈w / ext⌉ = ⌊w / ext⌋ + 1 := by
      have hle : ⌈w / ext⌉ ≤ ⌊w / ext⌋ + 1 := Int.ceil_le_floor_add_one _
      have hge : ⌊w / ext⌋ + 1 ≤ ⌈w / ext⌉ := by
        have : ((⌊w / ext⌋ : ℚ)) < ⌈w / ext⌉ := lt_of_lt_of_le hlt (Int.le_ceil _)
        exact_mod_cast Int.add_one_le_of_lt (by exact_mod_cast this)
      omega
    rw [h1, h2]
    omega
  · rw [if_neg hneg]
    have : 0 ≤ w / ext := div_nonneg (not_lt.mp hneg) hext.le
    rw [ratTrunc_of_nonneg this]
    omega

theorem floor_div_eq_iff {w ext : ℚ} (hext : 0 < ext) (c : ℤ) :
    ⌊w / ext⌋ = c ↔ (c : ℚ) * ext ≤ w ∧ w < ((c : ℚ) + 1) * ext := by
  rw [Int.floor_eq_iff]
  constructor
  · rintro ⟨h1, h2⟩
    refine ⟨?_, ?_⟩
    · calc (c : ℚ) * ext ≤ (w / ext) * ext := mul_le_mul_of_nonneg_right h1 hext.le
        _ = w := by field_simp
    · calc w = (w / ext) * ext := by field_simp
        _ < ((c : ℚ) + 1) * ext := mul_lt_mul_of_pos_right h2 hext
  · rintro ⟨h1, h2⟩
    exact ⟨(le_div_iff₀ hext).mpr h1, (div_lt_iff₀ hext).mpr h2⟩

/-- Characterization of the axis function on non-boundary inputs:
`chunkCoordAxis p ext = c` exactly when `p` lies in the half-open interval
`[c*ext - ext/2, c*ext + ext/2)`. -/
theorem chunkCoordAxis_eq_iff {p ext : ℚ} (hext : 0 < ext)
    (hb : ¬ NegBoundary p ext) (c : ℤ) :
    chunkCoordAxis p ext = c ↔
      (c : ℚ) * ext - ext / 2 ≤ p ∧ p < (c : ℚ) * ext + ext / 2 := by
  rw [chunkCoordAxis_eq_floor hext hb, floor_div_eq_iff hext]
  constructor
  · rintro ⟨h1, h2⟩
    constructor <;> nlinarith
  · rintro ⟨h1, h2⟩
    constructor <;> nlinarith

/-!
### Global/local round-trip lemmas (one axis)
-/

theorem global_roundtrip_axis (s : ℕ) (hs : 0 < s) (g : ℤ) :
    (Int.tdiv (g + ((s / 2 : ℕ) : ℤ) - ((g + ((s / 2 : ℕ) : ℤ)) % (s : ℤ)).toNat) (s : ℤ)) *
        (s : ℤ) +
      (((g + ((s / 2 : ℕ) : ℤ)) % (s : ℤ)).toNat : ℤ) - ((s / 2 : ℕ) : ℤ) = g := by
  set h : ℤ := ((s / 2 : ℕ) : ℤ) with hh
  set w : ℤ := g + h with hwdef
  have hsz : (s : ℤ) ≠ 0 := by exact_mod_cast hs.ne'
  have hmod : 0 ≤ w % (s : ℤ) := Int.emod_nonneg w hsz
  have htn : ((w % (s : ℤ)).toNat : ℤ) = w % (s : ℤ) := Int.toNat_of_nonneg hmod
  rw [htn]
  have hsub : w - w % (s : ℤ) = (s : ℤ) * (w / (s : ℤ)) := by
    have := Int.ediv_add_emod w (s : ℤ)
    omega
  rw [hsub]
  rw [Int.mul_tdiv_cancel_left _ hsz]
  have key : (s : ℤ) * (w / (s : ℤ)) + w % (s : ℤ) = w := Int.ediv_add_emod w (s : ℤ)
  have hmc : (w / (s : ℤ)) * (s : ℤ) = (s : ℤ) * (w / (s : ℤ)) := mul_comm _ _
  rw [hmc]
  linarith [key]

theorem tile_decomp_axis (s : ℕ) (hs : 0 < s) (c : ℤ) (t : ℕ) (ht : t < s) :
    ((c * (s : ℤ) + (t : ℤ) - ((s / 2 : ℕ) : ℤ) + ((s / 2 : ℕ) : ℤ)) % (s : ℤ)).toNat = t ∧
      Int.tdiv
        (c * (s : ℤ) + (t : ℤ) - ((s / 2 : ℕ) : ℤ) + ((s / 2 : ℕ) : ℤ) - (t : ℤ)) (s : ℤ) = c := by
  have hsz : (s : ℤ) ≠ 0 := by exact_mod_cast hs.ne'
  have hsimp : c * (s : ℤ) + (t : ℤ) - ((s / 2 : ℕ) : ℤ) + ((s / 2 : ℕ) : ℤ) =
      c * (s : ℤ) + (t : ℤ) := by ring
  constructor
  · rw [hsimp]
    have h1 : (c * (s : ℤ) + (t : ℤ)) % (s : ℤ) = (t : ℤ) % (s : ℤ) := by
      have hr : c * (s : ℤ) + (t : ℤ) = (t : ℤ) + (s : ℤ) * c := by ring
      rw [hr, Int.add_mul_emod_self_left]
    rw [h1, Int.emod_eq_of_lt (by exact_mod_cast Nat.zero_le t) (by exact_mod_cast ht)]
    exact Int.toNat_natCast t
  · rw [hsimp]
    have h2 : c * (s : ℤ) + (t : ℤ) - (t : ℤ) = (s : ℤ) * c := by ring
    rw [h2, Int.mul_tdiv_cancel_left _ hsz]

/-- One axis of `world_pos_to_tile_coord` stays strictly below the chunk size
whenever the chunk coordinate of that axis was computed as a true floor. -/
theorem tile_axis_lt (p ts : ℚ) (s : ℕ) (hts : 0 < ts) (hs : 0 < s)
    (hb : ¬ NegBoundary p ((s : ℚ) * ts)) :
    ratTruncToNat ((p - ((chunkCoordAxis p ((s : ℚ) * ts) : ℚ) * ((s : ℚ) * ts) -
      (s : ℚ) * ts / 2)) / ts) < s := by
  set ext : ℚ := (s : ℚ) * ts with hext
  have hexts : 0 < ext := by
    rw [hext]
    positivity
  have hc := chunkCoordAxis_eq_iff hexts hb (chunkCoordAxis p ext)
  obtain ⟨h1, h2⟩ := hc.mp rfl
  set c : ℤ := chunkCoordAxis p ext
  set off : ℚ := p - ((c : ℚ) * ext - ext / 2) with hoff
  have hoff0 : 0 ≤ off := by
    rw [hoff]
    linarith
  have hoffe : off < ext := by
    rw [hoff]
    linarith
  have hdiv0 : 0 ≤ off / ts := div_nonneg hoff0 hts.le
  have hdivs : off / ts < (s : ℚ) := by
    rw [div_lt_iff₀ hts]
    rw [hext] at hoffe
    linarith
  unfold ratTruncToNat
  rw [ratTrunc_of_nonneg hdiv0]
  have : ⌊off / ts⌋ < (s : ℤ) := by
    apply Int.floor_lt.mpr
    exact_mod_cast hdivs
  omega

/-- Claim C2 (corrected), counterexample: with `chunk_size = (2,2)` and
`tile_size = (4,4)` (extent 8) the position `(-12, 8)` lies in chunk
`(-1, 1)`'s half-open interval `[-12, -4) x [4, 12)`, but
`world_pos_to_chunk_coord` returns `(-2, 1)`: at a shifted coordinate that is
an exact negative multiple of the extent, truncation already equals the floor
and the extra `-1` overshoots. -/
theorem c2_counterexample :
    world_pos_to_chunk_coord (-12, 8) (2, 2) (4, 4) = (-2, 1) ∧
      ((-1 : ℚ)) * 8 - 8 / 2 ≤ -12 ∧ (-12 : ℚ) < (-1) * 8 + 8 / 2 ∧
      ((1 : ℚ)) * 8 - 8 / 2 ≤ 8 ∧ (8 : ℚ) < (1) * 8 + 8 / 2 ∧
      world_pos_to_chunk_coord (-12, 8) (2, 2) (4, 4) ≠ (-1, 1) := by
  refine ⟨?_, by norm_num, by norm_num, by norm_num, by norm_num, ?_⟩
  · show (_, _) = ((-2 : ℤ), (1 : ℤ))
    norm_num [world_pos_to_chunk_coord, ratTrunc, Prod.ext_iff]
  · intro h
    rw [show world_pos_to_chunk_coord (-12, 8) (2, 2) (4, 4) = (-2, 1) by
      norm_num [world_pos_to_chunk_coord, ratTrunc, Prod.ext_iff]] at h
    simp [Prod.ext_iff] at h

/-- Claim C2 (amended): `world_pos_to_chunk_coord` divides by the chunk extent
and floors toward negative infinity on every axis whose shifted coordinate
`p + extent/2` is not an exact negative multiple of the extent; on such axes
the returned coordinate is `c` exactly when the position lies in
`[c*extent - extent/2, c*extent + extent/2)`. In particular
`world_pos_to_chunk_coord (-8, 8) = (-1, 1)` for
`chunk_size = (2,2)`, `tile_size = (4,4)`. -/
theorem c2_floor_division :
    (∀ (p : ℚ × ℚ) (size : ℕ × ℕ) (ts : ℚ × ℚ) (c : ℤ × ℤ),
      0 < (size.1 : ℚ) * ts.1 → 0 < (size.2 : ℚ) * ts.2 →
      ¬ NegBoundary p.1 ((size.1 : ℚ) * ts.1) → ¬ NegBoundary p.2 ((size.2 : ℚ) * ts.2) →
      (world_pos_to_chunk_coord p size ts = c ↔
        ((c.1 : ℚ) * ((size.1 : ℚ) * ts.1) - ((size.1 : ℚ) * ts.1) / 2 ≤ p.1 ∧
          p.1 < (c.1 : ℚ) * ((size.1 : ℚ) * ts.1) + ((size.1 : ℚ) * ts.1) / 2 ∧
          (c.2 : ℚ) * ((size.2 : ℚ) * ts.2) - ((size.2 : ℚ) * ts.2) / 2 ≤ p.2 ∧
          p.2 < (c.2 : ℚ) * ((size.2 : ℚ) * ts.2) + ((size.2 : ℚ) * ts.2) / 2))) ∧
    world_pos_to_chunk_coord (-8, 8) (2, 2) (4, 4) = (-1, 1) := by
  constructor
  · intro p size ts c h1 h2 hb1 hb2
    rw [world_pos_to_chunk_coord_axes, Prod.ext_iff]
    rw [chunkCoordAxis_eq_iff h1 hb1 c.1, chunkCoordAxis_eq_iff h2 hb2 c.2]
    tauto
  · show (_, _) = ((-1 : ℤ), (1 : ℤ))
    norm_num [world_pos_to_chunk_coord, ratTrunc, Prod.ext_iff]

/-- Witness for `c2_floor_division`: at `p = (8, 8)`, `chunk_size = (2,2)`,
`tile_size = (4,4)` the hypotheses hold and the characterization yields
chunk `(1, 1)`. -/
theorem c2_witness : world_pos_to_chunk_coord (8, 8) (2, 2) (4, 4) = (1, 1) := by
  have h := (c2_floor_division.1 (8, 8) (2, 2) (4, 4) (1, 1)
    (by norm_num) (by norm_num)
    (by
      rintro ⟨hneg, -⟩
      norm_num at hneg)
    (by
      rintro ⟨hneg, -⟩
      norm_num at hneg))
  exact h.mpr (by norm_num)

/-- Claim C4 (confirmed): for positive chunk sizes the conversions between
global tile coordinates and `(chunk_coord, tile_coord)` pairs are mutually
inverse on all inputs, including negative coordinates; the tile part is the
Euclidean remainder of the centered offset and therefore lies in
`[0, chunk_size)`. -/
theorem c4_roundtrip (size : ℕ × ℕ) (hs1 : 0 < size.1) (hs2 : 0 < size.2) :
    (∀ g : ℤ × ℤ,
      tile_coord_to_global_coord (global_coord_to_tile_coord g size)
        (global_coord_to_chunk_coord g size) size = g) ∧
    (∀ (c : ℤ × ℤ) (t : ℕ × ℕ), t.1 < size.1 → t.2 < size.2 →
      global_coord_to_tile_coord (tile_coord_to_global_coord t c size) size = t ∧
      global_coord_to_chunk_coord (tile_coord_to_global_coord t c size) size = c) := by
  constructor
  · intro g
    unfold tile_coord_to_global_coord global_coord_to_chunk_coord global_coord_to_tile_coord
    rw [Prod.ext_iff]
    constructor
    · exact global_roundtrip_axis size.1 hs1 g.1
    · exact global_roundtrip_axis size.2 hs2 g.2
  · intro c t ht1 ht2
    have a1 := tile_decomp_axis size.1 hs1 c.1 t.1 ht1
    have a2 := tile_decomp_axis size.2 hs2 c.2 t.2 ht2
    unfold tile_coord_to_global_coord global_coord_to_chunk_coord global_coord_to_tile_coord
    constructor
    · rw [Prod.ext_iff]
      exact ⟨a1.1, a2.1⟩
    · rw [Prod.ext_iff]
      constructor
      · rw [a1.1]
        exact a1.2
      · rw [a2.1]
        exact a2.2

/-- Witness for `c4_roundtrip`: concrete round trips at `size = (2, 2)` with a
negative global coordinate, and decomposition recovery at
`c = (-3, 4)`, `t = (1, 0)`. -/
theorem c4_witness :
    tile_coord_to_global_coord (global_coord_to_tile_coord (-5, 7) (2, 2))
      (global_coord_to_chunk_coord (-5, 7) (2, 2)) (2, 2) = (-5, 7) ∧
    global_coord_to_tile_coord (tile_coord_to_global_coord (1, 0) (-3, 4) (2, 2)) (2, 2) =
      (1, 0) ∧
    global_coord_to_chunk_coord (tile_coord_to_global_coord (1, 0) (-3, 4) (2, 2)) (2, 2) =
      (-3, 4) := by
  have h := c4_roundtrip (2, 2) (by decide) (by decide)
  have h2 := h.2 (-3, 4) (1, 0) (by decide) (by decide)
  exact ⟨h.1 (-5, 7), h2.1, h2.2⟩

/-- Claim C9 (corrected), counterexample: at `p = (-12, 0)` with
`chunk_size = (2,2)`, `tile_size = (4,4)` the x component of
`world_pos_to_tile_coord` is `2`, which is not in `[0, 2)`: the mis-floored
chunk coordinate `-2` puts the chunk start at `-20`, giving local offset `8`
and tile index `8 / 4 = 2 = chunk_size`. -/
theorem c9_counterexample :
    world_pos_to_tile_coord (-12, 0) (2, 2) (4, 4) = (2, 1) ∧ ¬ ((2 : ℕ) < 2) := by
  constructor
  · show (_, _) = ((2 : ℕ), (1 : ℕ))
    norm_num [world_pos_to_tile_coord, world_pos_to_chunk_coord, chunk_coord_to_world_pos,
      ratTruncToNat, ratTrunc, Prod.ext_iff]
    all_goals decide
  · decide

/-- `world_pos_to_tile_coord` expressed axis-wise through `chunkCoordAxis`. -/
theorem world_pos_to_tile_coord_axes (p : ℚ × ℚ) (size : ℕ × ℕ) (ts : ℚ × ℚ) :
    world_pos_to_tile_coord p size ts =
      (ratTruncToNat ((p.1 - ((chunkCoordAxis p.1 ((size.1 : ℚ) * ts.1) : ℚ) *
          ((size.1 : ℚ) * ts.1) - (size.1 : ℚ) * ts.1 / 2)) / ts.1),
       ratTruncToNat ((p.2 - ((chunkCoordAxis p.2 ((size.2 : ℚ) * ts.2) : ℚ) *
          ((size.2 : ℚ) * ts.2) - (size.2 : ℚ) * ts.2 / 2)) / ts.2)) := rfl

/-- Claim C9 (amended): for every world position whose shifted coordinate
`p + extent/2` is not an exact negative multiple of the extent on either axis
(all other positions, including negative ones and positive chunk boundaries),
both components of `world_pos_to_tile_coord` are valid local tile coordinates
in `[0, chunk_size)` (the codomain `ℕ` gives the lower bound). -/
theorem c9_tile_in_range (p : ℚ × ℚ) (size : ℕ × ℕ) (ts : ℚ × ℚ)
    (hts1 : 0 < ts.1) (hts2 : 0 < ts.2) (hs1 : 0 < size.1) (hs2 : 0 < size.2)
    (hb1 : ¬ NegBoundary p.1 ((size.1 : ℚ) * ts.1))
    (hb2 : ¬ NegBoundary p.2 ((size.2 : ℚ) * ts.2)) :
    (world_pos_to_tile_coord p size ts).1 < size.1 ∧
      (world_pos_to_tile_coord p size ts).2 < size.2 := by
  rw [world_pos_to_tile_coord_axes]
  exact ⟨tile_axis_lt p.1 ts.1 size.1 hts1 hs1 hb1, tile_axis_lt p.2 ts.2 size.2 hts2 hs2 hb2⟩

/-- Witness for `c9_tile_in_range` at `p = (-8, 8)`, `chunk_size = (2,2)`,
`tile_size = (4,4)`. -/
theorem c9_witness :
    (world_pos_to_tile_coord (-8, 8) (2, 2) (4, 4)).1 < 2 ∧
      (world_pos_to_tile_coord (-8, 8) (2, 2) (4, 4)).2 < 2 :=
  c9_tile_in_range (-8, 8) (2, 2) (4, 4) (by norm_num) (by norm_num) (by decide) (by decide)
    (by
      rintro ⟨hneg, m, hm⟩
      norm_num at hm
      have h1 : (m : ℚ) < 0 := by nlinarith
      have h2 : (-1 : ℚ) < m := by nlinarith
      have h1z : m < 0 := by exact_mod_cast h1
      have h2z : (-1 : ℤ) < m := by exact_mod_cast h2
      omega)
    (by
      rintro ⟨hneg, -⟩
      norm_num at hneg)

/-!
## Generation scheduler, per-chunk component state —
`src/terrain/tiles/mod.rs`, `src/terrain/resources/mod.rs`,
`src/terrain/systems.rs`

A chunk entity carries four marker components:
`TileMapping` (tile array installed), `ComputeTileMapping` (tile task in
flight), `ResourceMapping`, `ComputeResourceMapping`.  `generate_terrain_task`
queries `(Without<TileMapping>, Without<ComputeTileMapping>)`, dispatches a
task and inserts `ComputeTileMapping`; the finished task's command queue
inserts `TileMapping` and removes `ComputeTileMapping` in one deferred merge.
`generate_resource_task` does the same with the resource components; its query
is `(Without<ResourceMapping>, Without<ComputeResourceMapping>)` and mentions
no tile component.
-/

/-- Component state of one chunk entity, plus dispatch counters (how many
generation tasks have been spawned for it). -/
structure ChunkPhase where
  hasTile : Bool
  hasCTile : Bool
  hasRes : Bool
  hasCRes : Bool
  tileDispatches : ℕ
  resDispatches : ℕ
  deriving DecidableEq, Repr

/-- A freshly spawned chunk entity: only `ChunkCoord` and the spatial bundle,
none of the four mapping components. -/
def chunkInit : ChunkPhase :=
  { hasTile := false
    hasCTile := false
    hasRes := false
    hasCRes := false
    tileDispatches := 0
    resDispatches := 0 }

/-- One observable transition of a chunk's component state under the four
scheduler systems.  `tileDispatch`/`resDispatch` are the query-guarded
dispatches; `tileMerge`/`resMerge` are the deferred command queues of finished
tasks (insert mapping, remove compute marker, applied atomically). -/
inductive SchedStep : ChunkPhase → ChunkPhase → Prop
  | tileDispatch (s : ChunkPhase) (h1 : s.hasTile = false) (h2 : s.hasCTile = false) :
      SchedStep s { s with hasCTile := true, tileDispatches := s.tileDispatches + 1 }
  | tileMerge (s : ChunkPhase) (h : s.hasCTile = true) :
      SchedStep s { s with hasTile := true, hasCTile := false }
  | resDispatch (s : ChunkPhase) (h1 : s.hasRes = false) (h2 : s.hasCRes = false) :
      SchedStep s { s with hasCRes := true, resDispatches := s.resDispatches + 1 }
  | resMerge (s : ChunkPhase) (h : s.hasCRes = true) :
      SchedStep s { s with hasRes := true, hasCRes := false }

/-- States of a chunk entity reachable from spawn. -/
inductive SchedReach : ChunkPhase → Prop
  | init : SchedReach chunkInit
  | step {s t : ChunkPhase} : SchedReach s → SchedStep s t → SchedReach t

theorem sched_invariant {s : ChunkPhase} (h : SchedReach s) :
    (s.tileDispatches = if s.hasTile || s.hasCTile then 1 else 0) ∧
      ¬(s.hasTile = true ∧ s.hasCTile = true) ∧
      (s.resDispatches = if s.hasRes || s.hasCRes then 1 else 0) ∧
      ¬(s.hasRes = true ∧ s.hasCRes = true) := by
  induction h with
  | init => simp [chunkInit]
  | step _ hstep ih =>
    obtain ⟨ih1, ih2, ih3, ih4⟩ := ih
    cases hstep with
    | tileDispatch h1 h2 =>
      refine ⟨?_, by simp [h1], by simpa using ih3, by simpa using ih4⟩
      simp [h1, h2] at ih1
      simp [ih1]
    | tileMerge h =>
      refine ⟨?_, by simp, by simpa using ih3, by simpa using ih4⟩
      simp [h] at ih1
      simp [ih1]
    | resDispatch h1 h2 =>
      refine ⟨by simpa using ih1, by simpa using ih2, ?_, by simp [h1]⟩
      simp [h1, h2] at ih3
      simp [ih3]
    | resMerge h =>
      refine ⟨by simpa using ih1, by simpa using ih2, ?_, by simp⟩
      simp [h] at ih3
      simp [ih3]

/-- Claim C7 (confirmed): in every state reachable from spawn, a chunk has
been dispatched at most once for tile generation and at most once for
resource generation — the `Without` query guards together with the atomic
deferred merge (insert mapping, remove compute marker) make re-dispatch
impossible. -/
theorem c7_dispatch_at_most_once {s : ChunkPhase} (h : SchedReach s) :
    s.tileDispatches ≤ 1 ∧ s.resDispatches ≤ 1 := by
  obtain ⟨h1, -, h3, -⟩ := sched_invariant h
  constructor
  · rw [h1]
    split <;> omega
  · rw [h3]
    split <;> omega

/-- The chunk state after a tile dispatch followed by its deferred merge. -/
def tileDoneState : ChunkPhase :=
  { hasTile := true
    hasCTile := false
    hasRes := false
    hasCRes := false
    tileDispatches := 1
    resDispatches := 0 }

/-- Witness for `c7_dispatch_at_most_once` at the reachable state that has
dispatched and merged tile generation. -/
theorem c7_witness :
    tileDoneState.tileDispatches ≤ 1 ∧ tileDoneState.resDispatches ≤ 1 := by
  apply c7_dispatch_at_most_once
  have h1 : SchedReach { chunkInit with
      hasCTile := true
      tileDispatches := chunkInit.tileDispatches + 1 } :=
    SchedReach.step SchedReach.init (SchedStep.tileDispatch chunkInit rfl rfl)
  have h2 := SchedReach.step h1 (SchedStep.tileMerge _ rfl)
  simpa [chunkInit, tileDoneState] using h2

/-!
## Resource generator — `src/terrain/resources/generator.rs`

`ResourceGenerator::generate(coord, size)` builds a fractal-Perlin plane map
and a Worley plane map over the chunk's window and classifies each tile from
the zipped pair of noise values.  It receives no tile-kind array: the noise
fields are abstracted as value streams indexed by the row-major tile index.
-/

inductive TileKind where
  | Water
  | Grass
  | Barren
  deriving DecidableEq, Repr

inductive ResourceKind where
  | None
  | Tree
  | Rock
  deriving DecidableEq, Repr

/-- The classification closure of `ResourceGenerator::generate`:
`|(noise, worley)| if worley < 0.0 || noise < 0.3 { None } else if worley < 0.5
{ Rock } else { Tree }`. -/
def resourceClassify (noise worley : ℚ) : ResourceKind :=
  if worley < 0 ∨ noise < 3/10 then ResourceKind.None
  else if worley < 1/2 then ResourceKind.Rock
  else ResourceKind.Tree

/-- `ResourceGenerator::generate`, with the two noise plane maps abstracted as
functions of the row-major index (`n = size.x * size.y` samples).  The
signature shows the dependency structure of the source: no tile-kind array is
consumed. -/
def resourceGenerate (perlinF worleyF : ℕ → ℚ) (n : ℕ) : List ResourceKind :=
  (List.range n).map (fun i => resourceClassify (perlinF i) (worleyF i))

/-- The state in which resource generation has been dispatched once while no
tile mapping is installed and no tile task has been dispatched. -/
def resBeforeTileState : ChunkPhase :=
  { hasTile := false
    hasCTile := false
    hasRes := false
    hasCRes := true
    tileDispatches := 0
    resDispatches := 1 }

/-- Claim C1 (corrected), counterexample: `resBeforeTileState` is reachable —
the resource query `(Without<ResourceMapping>, Without<ComputeResourceMapping>)`
does not wait for `TileMapping`, so tile installation does not precede
resource generation. -/
theorem c1_counterexample :
    SchedReach resBeforeTileState ∧ resBeforeTileState.hasTile = false ∧
      resBeforeTileState.resDispatches = 1 := by
  refine ⟨?_, rfl, rfl⟩
  have := SchedReach.step SchedReach.init (SchedStep.resDispatch chunkInit rfl rfl)
  simpa [chunkInit, resBeforeTileState] using this

/-- Claim C1 (amended): within one chunk's pipeline the two generation phases
are dispatched independently — resource dispatch is enabled by the resource
component guards alone, regardless of the tile components, and the resource
kind of a tile is a function of the resource generator's own Perlin and
Worley samples only (the generator receives no tile array). -/
theorem c1_resource_independent :
    (∀ s : ChunkPhase, s.hasRes = false → s.hasCRes = false →
      SchedStep s { s with hasCRes := true, resDispatches := s.resDispatches + 1 }) ∧
    (∀ (perlinF worleyF : ℕ → ℚ) (n i : ℕ), i < n →
      (resourceGenerate perlinF worleyF n).getD i ResourceKind.None =
        resourceClassify (perlinF i) (worleyF i)) := by
  constructor
  · intro s h1 h2
    exact SchedStep.resDispatch s h1 h2
  · intro perlinF worleyF n i hi
    unfold resourceGenerate
    rw [List.getD_eq_getElem?_getD]
    rw [List.getElem?_map]
    simp [List.getElem?_range hi]

/-- Witness for `c1_resource_independent`: resource dispatch fires from the
freshly spawned state, and the generated kind at index 0 of a one-tile chunk
is the classification of the two noise samples. -/
theorem c1_witness :
    SchedStep chunkInit { chunkInit with
      hasCRes := true
      resDispatches := chunkInit.resDispatches + 1 } ∧
    (resourceGenerate (fun _ => 1) (fun _ => 1/4) 1).getD 0 ResourceKind.None =
      resourceClassify 1 (1/4) :=
  ⟨c1_resource_independent.1 chunkInit rfl rfl,
   c1_resource_independent.2 (fun _ => 1) (fun _ => 1/4) 1 0 (by decide)⟩

/-!
## Streaming controller — `src/terrain/mod.rs` and `src/terrain/chunking.rs`

`ChunkManager` holds `chunks : HashMap<IVec2, Entity>` (modelled as a
membership predicate) and `loaded : HashSet<IVec2>`; entities carry a
`Visibility` component once the deferred `SpatialBundle` insert of
`spawn_chunks_around_camera` has been applied (`hasVis`).  The three systems
run each tick; commands issued by `spawn_chunks_around_camera` (the component
bundle for new chunks) are applied at the end of the tick, while direct
`ChunkManager` and `Query<&mut Visibility>` mutations are immediate.
-/

def SPAWN_CHUNK_RADIUS : ℤ := 8

def LOAD_CHUNK_RADIUS : ℤ := 3

/-- Chebyshev distance on chunk coordinates,
`(a - b).abs().max_element()`. -/
def cheb (a b : ℤ × ℤ) : ℤ := max |a.1 - b.1| |a.2 - b.2|

structure StreamState where
  chunks : ℤ × ℤ → Bool
  hasVis : ℤ × ℤ → Bool
  loaded : ℤ × ℤ → Bool

/-- `spawn_chunks_around_camera`: every coordinate of the
`(2*SPAWN_CHUNK_RADIUS+1)^2` square around the camera chunk that is not yet
registered is inserted into the registry (immediately); its component bundle
is deferred. -/
def spawnChunksAroundCamera (cam : ℤ × ℤ) (s : StreamState) : StreamState :=
  { s with chunks := fun c => s.chunks c || decide (cheb c cam ≤ SPAWN_CHUNK_RADIUS) }

/-- `load_chunks_around_camera`: coordinates of the load square that are
registered, not yet loaded, and whose entity resolves in the visibility query
are marked `Visible` and recorded as loaded. -/
def loadChunksAroundCamera (cam : ℤ × ℤ) (s : StreamState) : StreamState :=
  { s with loaded := fun c =>
      s.loaded c ||
        (decide (cheb c cam ≤ LOAD_CHUNK_RADIUS) && s.chunks c && s.hasVis c) }

/-- `unload_chunks_outside_camera`: loaded coordinates at Chebyshev distance
greater than `LOAD_CHUNK_RADIUS` whose entity resolves are marked `Hidden` and
removed from the loaded set. -/
def unloadChunksOutsideCamera (cam : ℤ × ℤ) (s : StreamState) : StreamState :=
  { s with loaded := fun c =>
      s.loaded c &&
        !(decide (LOAD_CHUNK_RADIUS < cheb c cam) && s.chunks c && s.hasVis c) }

/-- End-of-tick command application: chunks spawned this tick (inside the
spawn square and new to the registry) receive their `SpatialBundle`, hence a
`Visibility` component. -/
def flushSpawnCommands (cam : ℤ × ℤ) (s0 : StreamState) (s : StreamState) : StreamState :=
  { s with hasVis := fun c =>
      s.hasVis c || (!s0.chunks c && decide (cheb c cam ≤ SPAWN_CHUNK_RADIUS)) }

/-- One controller tick in registration order: spawn, load, unload, then
command application. -/
def controllerTick (cam : ℤ × ℤ) (s : StreamState) : StreamState :=
  flushSpawnCommands cam s
    (unloadChunksOutsideCamera cam (loadChunksAroundCamera cam (spawnChunksAroundCamera cam s)))

/-- Well-formedness tying the three sets together: a loaded chunk has a
visibility component, and only registered chunks have one.  Holds at startup
(all three sets empty) and is preserved by the tick. -/
def StreamWF (s : StreamState) : Prop :=
  ∀ c : ℤ × ℤ, (s.loaded c = true → s.hasVis c = true) ∧
    (s.hasVis c = true → s.chunks c = true)

/-- The camera's chunk coordinate as each system computes it,
`world_pos_to_chunk_coord(transform.translation.xz(), ...)` with the
`ChunkManager` defaults `CHUNK_SIZE = 32`, `CHUNK_TILE_SIZE = 16`. -/
def cameraChunk (camPos : ℚ × ℚ) : ℤ × ℤ :=
  world_pos_to_chunk_coord camPos (32, 32) (16, 16)

/-- Claim C8 (confirmed): after a controller tick from any well-formed state,
every coordinate within `SPAWN_CHUNK_RADIUS` of the camera chunk is in the
registry, every loaded (`Visible`) coordinate is within `LOAD_CHUNK_RADIUS`,
no coordinate ever leaves the registry, and well-formedness is preserved. -/
theorem c8_streaming_containment (camPos : ℚ × ℚ) (s : StreamState) (hWF : StreamWF s) :
    (∀ c : ℤ × ℤ, cheb c (cameraChunk camPos) ≤ SPAWN_CHUNK_RADIUS →
      (controllerTick (cameraChunk camPos) s).chunks c = true) ∧
    (∀ c : ℤ × ℤ, (controllerTick (cameraChunk camPos) s).loaded c = true →
      cheb c (cameraChunk camPos) ≤ LOAD_CHUNK_RADIUS) ∧
    (∀ c : ℤ × ℤ, s.chunks c = true → (controllerTick (cameraChunk camPos) s).chunks c = true) ∧
    StreamWF (controllerTick (cameraChunk camPos) s) := by
  set cam : ℤ × ℤ := cameraChunk camPos
  refine ⟨?_, ?_, ?_, ?_⟩
  · intro c hc
    simp [controllerTick, flushSpawnCommands, unloadChunksOutsideCamera,
      loadChunksAroundCamera, spawnChunksAroundCamera, hc]
  · intro c hc
    by_contra hfar
    have hfar' : LOAD_CHUNK_RADIUS < cheb c cam := lt_of_not_le hfar
    have hWFc := hWF c
    cases hch : s.chunks c <;> cases hv : s.hasVis c <;> cases hld : s.loaded c <;>
      simp [controllerTick, flushSpawnCommands, unloadChunksOutsideCamera,
        loadChunksAroundCamera, spawnChunksAroundCamera, hch, hv, hld, hfar',
        not_le.mpr hfar'] at hc hWFc
  · intro c hc
    simp [controllerTick, flushSpawnCommands, unloadChunksOutsideCamera,
      loadChunksAroundCamera, spawnChunksAroundCamera, hc]
  · intro c
    have hWFc := hWF c
    constructor
    · intro hl
      cases hch : s.chunks c <;> cases hv : s.hasVis c <;> cases hld : s.loaded c <;>
        simp [controllerTick, flushSpawnCommands, unloadChunksOutsideCamera,
          loadChunksAroundCamera, spawnChunksAroundCamera, hch, hv, hld] at hl hWFc ⊢
    · intro hv2
      cases hch : s.chunks c <;> cases hv : s.hasVis c <;>
        simp [controllerTick, flushSpawnCommands, unloadChunksOutsideCamera,
          loadChunksAroundCamera, spawnChunksAroundCamera, hch, hv] at hv2 hWFc ⊢
      tauto

/-- The startup state: empty registry, no components, nothing loaded. -/
def streamInit : StreamState :=
  { chunks := fun _ => false
    hasVis := fun _ => false
    loaded := fun _ => false }

/-- Witness for `c8_streaming_containment`: one tick from the startup state
with the camera at the world origin registers chunk `(5, -5)` (Chebyshev
distance 5 from camera chunk `(0, 0)`), keeps the loaded set inside the load
radius, and preserves registration and well-formedness. -/
theorem c8_witness :
    (controllerTick (cameraChunk (0, 0)) streamInit).chunks (5, -5) = true ∧
      ((controllerTick (cameraChunk (0, 0)) streamInit).loaded (5, -5) = true →
        cheb (5, -5) (cameraChunk (0, 0)) ≤ LOAD_CHUNK_RADIUS) := by
  have hWF : StreamWF streamInit := by
    intro c
    simp [streamInit]
  have h := c8_streaming_containment (0, 0) streamInit hWF
  have hcam : cameraChunk (0, 0) = (0, 0) := by
    show (_, _) = ((0 : ℤ), (0 : ℤ))
    norm_num [cameraChunk, world_pos_to_chunk_coord, ratTrunc, Prod.ext_iff]
  constructor
  · apply h.1 (5, -5)
    rw [hcam]
    decide
  · intro hl
    exact h.2.1 (5, -5) hl

/-!
## Poisson-disc sampler — `src/helpers/sampling/disc.rs`

`PoissonDiscSampler::sample` is driven by the `Uniform(0,1)` sample stream of
`StdRng::seed_from_u64(seed)`; the stream is abstracted by `u : ℕ → ℚ` (one
value per `.next()` call, consumed in program order).  The candidate offset
`direction(angle) * distance` with `angle = u * 2π`,
`distance = radius * (u + 1)` involves `cos`/`sin`, which have no exact
rational embedding; it is abstracted by `off : ℚ → ℚ → ℚ × ℚ` applied to the
two consumed draws.  `cell = radius / sqrt(2)` is likewise carried as a field
(the divisor is irrational); theorems constrain it by the inequalities
`2 * cell^2 ≤ radius^2 ≤ 4 * cell^2` satisfied by `radius / sqrt 2`.
`sqrt2f32` below is the exact value of the `f32` constant `2.0_f32.sqrt()`,
used to build concrete runs whose arithmetic matches `f32` exactly.
-/

/-- The exact rational value of the `f32` nearest to `sqrt 2`
(bit pattern `0x3FB504F3`). -/
def sqrt2f32 : ℚ := 11863283 / 8388608

structure PoissonInput where
  u : ℕ → ℚ
  off : ℚ → ℚ → ℚ × ℚ
  radius : ℚ
  size : ℚ × ℚ
  k : ℕ
  cell : ℚ

/-- `(self.size / cell_size).ceil().as_uvec2()`. -/
def gridSize (inp : PoissonInput) : ℕ × ℕ :=
  ((⌈inp.size.1 / inp.cell⌉).toNat, (⌈inp.size.2 / inp.cell⌉).toNat)

/-- The grid vector length `(grid_size.x * grid_size.y) as usize`. -/
def gridCells (inp : PoissonInput) : ℕ := (gridSize inp).1 * (gridSize inp).2

/-- `(p / cell_size).as_uvec2()`. -/
def cellCoord (inp : PoissonInput) (p : ℚ × ℚ) : ℕ × ℕ :=
  (ratTruncToNat (p.1 / inp.cell), ratTruncToNat (p.2 / inp.cell))

/-- `(coord.y * grid_size.x + coord.x) as usize`, the unclamped flat index
used for grid writes. -/
def cellIdx (inp : PoissonInput) (p : ℚ × ℚ) : ℕ :=
  (cellCoord inp p).2 * (gridSize inp).1 + (cellCoord inp p).1

/-- Squared Euclidean distance; `(a - b).length() < r` is modelled as
`distSq a b < r^2`. -/
def distSq (a b : ℚ × ℚ) : ℚ := (a.1 - b.1) ^ 2 + (a.2 - b.2) ^ 2

/-- `Rect::from_corners(Vec2::ZERO, self.size).contains(candidate)` —
inclusive on all four edges. -/
def inRect (inp : PoissonInput) (p : ℚ × ℚ) : Prop :=
  0 ≤ p.1 ∧ p.1 ≤ inp.size.1 ∧ 0 ≤ p.2 ∧ p.2 ≤ inp.size.2

instance (inp : PoissonInput) (p : ℚ × ℚ) : Decidable (inRect inp p) := by
  unfold inRect
  infer_instance

/-- The flat grid indices visited by the `is_valid` neighborhood loop:
`y` in `max(cy-2,0) ..= min(cy+2, grid_size.y-1)`,
`x` in `max(cx-2,0) ..= min(cx+2, grid_size.x-1)` (the `ℕ` truncated
subtraction `cc - 2` is the `i32` `max(...-2, 0)` of the source). -/
def readIdxs (inp : PoissonInput) (cand : ℚ × ℚ) : List ℕ :=
  let g := gridSize inp
  let cc := cellCoord inp cand
  let minX := cc.1 - 2
  let maxX := min (cc.1 + 2) (g.1 - 1)
  let minY := cc.2 - 2
  let maxY := min (cc.2 + 2) (g.2 - 1)
  (List.range (maxY + 1 - minY)).flatMap
    (fun dy => (List.range (maxX + 1 - minX)).map (fun dx => (minY + dy) * g.1 + (minX + dx)))

/-- `PoissonDiscSampler::is_valid`: inside the (closed) area rectangle, and no
sample registered in the 5×5 cell neighborhood lies strictly closer than
`radius`. -/
def isValid (inp : PoissonInput) (grid : List (Option ℕ)) (samples : List (ℚ × ℚ))
    (cand : ℚ × ℚ) : Bool :=
  if inRect inp cand then
    (readIdxs inp cand).all fun idx =>
      (grid.getD idx none).elim true
        (fun i => !(decide (distSq cand (samples.getD i (0, 0)) < inp.radius ^ 2)))
  else false

/-- The inner `for _ in 0..self.k` candidate loop: at most `j` further tries,
each consuming two stream draws (angle, distance); returns the first valid
candidate and the stream position after the loop. -/
def findCand (inp : PoissonInput) (grid : List (Option ℕ)) (samples : List (ℚ × ℚ))
    (sample : ℚ × ℚ) : ℕ → ℕ → Option (ℚ × ℚ) × ℕ
  | pos, 0 => (none, pos)
  | pos, j + 1 =>
    if isValid inp grid samples
        (sample.1 + (inp.off (inp.u pos) (inp.u (pos + 1))).1,
          sample.2 + (inp.off (inp.u pos) (inp.u (pos + 1))).2) then
      ((some (sample.1 + (inp.off (inp.u pos) (inp.u (pos + 1))).1,
          sample.2 + (inp.off (inp.u pos) (inp.u (pos + 1))).2)), pos + 2)
    else findCand inp grid samples sample (pos + 2) j

/-- The sampler state: acceleration grid, accepted samples, active list, and
current position in the random stream. -/
structure PState where
  grid : List (Option ℕ)
  samples : List (ℚ × ℚ)
  active : List (ℚ × ℚ)
  pos : ℕ
  deriving DecidableEq

/-- State after the pre-loop seeding: the initial point
`(u0, u1) * size` is pushed to samples and active and registered in its grid
cell. -/
def pInit (inp : PoissonInput) : PState :=
  { grid := (List.replicate (gridCells inp) none).set
      (cellIdx inp (inp.u 0 * inp.size.1, inp.u 1 * inp.size.2)) (some 0)
    samples := [(inp.u 0 * inp.size.1, inp.u 1 * inp.size.2)]
    active := [(inp.u 0 * inp.size.1, inp.u 1 * inp.size.2)]
    pos := 2 }

/-- `(uniform.next().unwrap() * active.len() as f32) as usize`. -/
def pickIdx (inp : PoissonInput) (S : PState) : ℕ :=
  ratTruncToNat (inp.u S.pos * (S.active.length : ℚ))

/-- `let sample = active[index]`. -/
def pickSample (inp : PoissonInput) (S : PState) : ℚ × ℚ :=
  S.active.getD (pickIdx inp S) (0, 0)

/-- The acceptance path of the loop body: register the candidate at its
unclamped cell index, push it to samples and active. -/
def pAccept (inp : PoissonInput) (S : PState) (cand : ℚ × ℚ) (pos2 : ℕ) : PState :=
  { grid := S.grid.set (cellIdx inp cand) (some S.samples.length)
    samples := S.samples ++ [cand]
    active := S.active ++ [cand]
    pos := pos2 }

/-- One iteration of the `while active.len() > 0` loop: pick
`(u * active.len()) as usize`, try up to `k` candidates around it; on success
push the candidate (grid write at its unclamped cell index, samples, active),
otherwise remove the picked entry from the active list. -/
def pstep (inp : PoissonInput) (S : PState) : PState :=
  if S.active = [] then S
  else
    match findCand inp S.grid S.samples (pickSample inp S) (S.pos + 1) inp.k with
    | (some cand, pos2) => pAccept inp S cand pos2
    | (none, pos2) =>
      { S with
        active := S.active.eraseIdx (pickIdx inp S)
        pos := pos2 }

/-- The loop iterated `n` times from the seeded state. -/
def prun (inp : PoissonInput) : ℕ → PState
  | 0 => pInit inp
  | n + 1 => pstep inp (prun inp n)

/-- An iteration budget past the termination bound proved in
`c6_termination`. -/
def pfuel (inp : PoissonInput) : ℕ := gridCells inp * (gridCells inp + 2) + 2

/-- `PoissonDiscSampler::sample()`: the accepted samples once the loop has run
to completion (by `c6_termination` the active list is empty after at most
`pfuel` iterations for well-formed inputs, and `pstep` is the identity on
states with an empty active list). -/
def psample (inp : PoissonInput) : List (ℚ × ℚ) := (prun inp (pfuel inp)).samples

/-!
### Basic sampler lemmas
-/

theorem pstep_of_empty (inp : PoissonInput) {S : PState} (h : S.active = []) :
    pstep inp S = S := by
  unfold pstep
  rw [if_pos h]

theorem prun_stable (inp : PoissonInput) {n : ℕ} (h : (prun inp n).active = []) :
    ∀ m : ℕ, prun inp (n + m) = prun inp n := by
  intro m
  induction m with
  | zero => rfl
  | succ m ih =>
    have : prun inp (n + (m + 1)) = pstep inp (prun inp (n + m)) := rfl
    rw [this, ih, pstep_of_empty inp h]

theorem findCand_some {inp : PoissonInput} {grid : List (Option ℕ)} {samples : List (ℚ × ℚ)}
    {sample : ℚ × ℚ} {cand : ℚ × ℚ} :
    ∀ {pos j pos2 : ℕ}, findCand inp grid samples sample pos j = (some cand, pos2) →
      isValid inp grid samples cand = true := by
  intro pos j
  induction j generalizing pos with
  | zero =>
    intro pos2 h
    simp [findCand] at h
  | succ j ih =>
    intro pos2 h
    unfold findCand at h
    by_cases hv : isValid inp grid samples
        (sample.1 + (inp.off (inp.u pos) (inp.u (pos + 1))).1,
         sample.2 + (inp.off (inp.u pos) (inp.u (pos + 1))).2) = true
    · rw [if_pos hv] at h
      injection h with h1 h2
      injection h1 with h1
      rw [← h1]
      exact hv
    · rw [if_neg hv] at h
      exact ih h

/-- Equation lemma: the acceptance case of `pstep`. -/
theorem pstep_eq_accept {inp : PoissonInput} {S : PState} (hA : S.active ≠ [])
    {cand : ℚ × ℚ} {pos2 : ℕ}
    (hfc : findCand inp S.grid S.samples (pickSample inp S) (S.pos + 1) inp.k =
      (some cand, pos2)) :
    pstep inp S = pAccept inp S cand pos2 := by
  unfold pstep
  rw [if_neg hA, hfc]

/-- Equation lemma: the rejection case of `pstep`. -/
theorem pstep_eq_reject {inp : PoissonInput} {S : PState} (hA : S.active ≠ [])
    {pos2 : ℕ}
    (hfc : findCand inp S.grid S.samples (pickSample inp S) (S.pos + 1) inp.k =
      (none, pos2)) :
    pstep inp S =
      { S with
        active := S.active.eraseIdx (pickIdx inp S)
        pos := pos2 } := by
  unfold pstep
  rw [if_neg hA, hfc]

/-- Every step appends either nothing or one accepted candidate to the
sample list. -/
theorem pstep_samples (inp : PoissonInput) (S : PState) :
    (pstep inp S).samples = S.samples ∨
      ∃ cand : ℚ × ℚ, (pstep inp S).samples = S.samples ++ [cand] := by
  by_cases hA : S.active = []
  · rw [pstep_of_empty inp hA]
    exact Or.inl rfl
  · rcases hfc : findCand inp S.grid S.samples (pickSample inp S) (S.pos + 1) inp.k with
      ⟨ocand, pos2⟩
    cases ocand with
    | none =>
      rw [pstep_eq_reject hA hfc]
      exact Or.inl rfl
    | some cand =>
      rw [pstep_eq_accept hA hfc]
      exact Or.inr ⟨cand, rfl⟩

theorem prun_samples_mono (inp : PoissonInput) {m n : ℕ} (h : m ≤ n) :
    ∀ p ∈ (prun inp m).samples, p ∈ (prun inp n).samples := by
  induction n with
  | zero =>
    intro p hp
    rw [Nat.le_zero.mp h] at hp
    exact hp
  | succ n ih =>
    intro p hp
    rcases Nat.lt_or_ge m (n + 1) with hlt | hge
    · have hp2 := ih (Nat.lt_succ_iff.mp hlt) p hp
      have : prun inp (n + 1) = pstep inp (prun inp n) := rfl
      rw [this]
      rcases pstep_samples inp (prun inp n) with he | ⟨cand, he⟩
      · rw [he]
        exact hp2
      · rw [he]
        exact List.mem_append_left _ hp2
    · have : m = n + 1 := le_antisymm h hge
      rw [← this]
      exact hp

/-!
### Cell-geometry lemmas
-/

theorem ratTruncToNat_eq_floor_toNat {q : ℚ} (h : 0 ≤ q) :
    ratTruncToNat q = ⌊q⌋.toNat := by
  unfold ratTruncToNat
  rw [ratTrunc_of_nonneg h]

/-- Cast form of `ratTruncToNat` on nonnegative inputs. -/
theorem ratTruncToNat_cast {q : ℚ} (h : 0 ≤ q) :
    ((ratTruncToNat q : ℤ)) = ⌊q⌋ := by
  rw [ratTruncToNat_eq_floor_toNat h]
  exact Int.toNat_of_nonneg (Int.le_floor.mpr (by exact_mod_cast h))

/-- A coordinate strictly below `s` falls in a cell column strictly below
`⌈s / cell⌉`. -/
theorem cell_lt_grid {c s x : ℚ} (hc : 0 < c) (hx : 0 ≤ x) (hxs : x < s) :
    ratTruncToNat (x / c) < (⌈s / c⌉).toNat := by
  have hq : 0 ≤ x / c := div_nonneg hx hc.le
  have hlt : x / c < s / c := div_lt_div_of_pos_right hxs hc
  have h2 : ((⌊x / c⌋ : ℚ)) < ((⌈s / c⌉ : ℚ)) :=
    lt_of_le_of_lt (Int.floor_le _) (lt_of_lt_of_le hlt (Int.le_ceil _))
  have h3 : ⌊x / c⌋ < ⌈s / c⌉ := by exact_mod_cast h2
  have h4 : 0 ≤ ⌊x / c⌋ := Int.le_floor.mpr (by exact_mod_cast hq)
  rw [ratTruncToNat_eq_floor_toNat hq]
  omega

theorem distSq_comm (a b : ℚ × ℚ) : distSq a b = distSq b a := by
  unfold distSq
  ring

/-- Two nonnegative coordinates less than `2 * cell` apart land in cell
columns at most 2 apart. -/
theorem cells_near {c a b : ℚ} (hc : 0 < c) (ha : 0 ≤ a) (hb : 0 ≤ b)
    (h : |a - b| < 2 * c) :
    ratTruncToNat (a / c) ≤ ratTruncToNat (b / c) + 2 ∧
      ratTruncToNat (b / c) ≤ ratTruncToNat (a / c) + 2 := by
  have hqa : 0 ≤ a / c := div_nonneg ha hc.le
  have hqb : 0 ≤ b / c := div_nonneg hb hc.le
  have habs := abs_lt.mp h
  have h1 : a / c < b / c + 2 := by
    rw [div_add' _ _ _ hc.ne', div_lt_div_iff_of_pos_right hc]
    linarith [habs.2]
  have h2 : b / c < a / c + 2 := by
    rw [div_add' _ _ _ hc.ne', div_lt_div_iff_of_pos_right hc]
    linarith [habs.1]
  have f1 : ⌊a / c⌋ < ⌊b / c⌋ + 3 := by
    apply Int.floor_lt.mpr
    push_cast
    have := Int.lt_floor_add_one (b / c)
    linarith
  have f2 : ⌊b / c⌋ < ⌊a / c⌋ + 3 := by
    apply Int.floor_lt.mpr
    push_cast
    have := Int.lt_floor_add_one (a / c)
    linarith
  have g1 : 0 ≤ ⌊a / c⌋ := Int.le_floor.mpr (by exact_mod_cast hqa)
  have g2 : 0 ≤ ⌊b / c⌋ := Int.le_floor.mpr (by exact_mod_cast hqb)
  rw [ratTruncToNat_eq_floor_toNat hqa, ratTruncToNat_eq_floor_toNat hqb]
  omega

/-- Two nonnegative coordinates in the same cell column are strictly less
than `cell` apart. -/
theorem same_cell_close {c a b : ℚ} (hc : 0 < c) (ha : 0 ≤ a) (hb : 0 ≤ b)
    (h : ratTruncToNat (a / c) = ratTruncToNat (b / c)) : |a - b| < c := by
  have hqa : 0 ≤ a / c := div_nonneg ha hc.le
  have hqb : 0 ≤ b / c := div_nonneg hb hc.le
  have hfe : ⌊a / c⌋ = ⌊b / c⌋ := by
    rw [ratTruncToNat_eq_floor_toNat hqa, ratTruncToNat_eq_floor_toNat hqb] at h
    have g1 : 0 ≤ ⌊a / c⌋ := Int.le_floor.mpr (by exact_mod_cast hqa)
    have g2 : 0 ≤ ⌊b / c⌋ := Int.le_floor.mpr (by exact_mod_cast hqb)
    omega
  have ha1 : ((⌊a / c⌋ : ℚ)) ≤ a / c := Int.floor_le _
  have ha2 : a / c < ((⌊a / c⌋ : ℚ)) + 1 := Int.lt_floor_add_one _
  have hb1 : ((⌊a / c⌋ : ℚ)) ≤ b / c := by
    rw [hfe]
    exact_mod_cast Int.floor_le (b / c)
  have hb2 : b / c < ((⌊a / c⌋ : ℚ)) + 1 := by
    rw [hfe]
    exact_mod_cast Int.lt_floor_add_one (b / c)
  have hA1 : ((⌊a / c⌋ : ℚ)) * c ≤ a := by
    rw [← le_div_iff₀ hc]
    exact ha1
  have hA2 : a < (((⌊a / c⌋ : ℚ)) + 1) * c := by
    rw [← div_lt_iff₀ hc]
    exact ha2
  have hB1 : ((⌊a / c⌋ : ℚ)) * c ≤ b := by
    rw [← le_div_iff₀ hc]
    exact hb1
  have hB2 : b < (((⌊a / c⌋ : ℚ)) + 1) * c := by
    rw [← div_lt_iff₀ hc]
    exact hb2
  rw [abs_lt]
  constructor <;> nlinarith

/-- Row-major flat indices of in-range cell coordinates are injective. -/
theorem flat_idx_inj {g x1 y1 x2 y2 : ℕ} (h1 : x1 < g) (h2 : x2 < g)
    (h : y1 * g + x1 = y2 * g + x2) : x1 = x2 ∧ y1 = y2 := by
  have e1 : (y1 * g + x1) % g = x1 := by
    rw [Nat.add_mod, Nat.mul_mod_left]
    simp [Nat.mod_eq_of_lt h1]
  have e2 : (y2 * g + x2) % g = x2 := by
    rw [Nat.add_mod, Nat.mul_mod_left]
    simp [Nat.mod_eq_of_lt h2]
  have ex : x1 = x2 := by rw [← e1, ← e2, h]
  refine ⟨ex, ?_⟩
  subst ex
  have hg : 0 < g := lt_of_le_of_lt (Nat.zero_le x1) h1
  have : y1 * g = y2 * g := by omega
  exact Nat.eq_of_mul_eq_mul_right hg this

/-- The flat index of an in-range cell coordinate is within the grid vector. -/
theorem flat_idx_lt {g1 g2 x y : ℕ} (hx : x < g1) (hy : y < g2) :
    y * g1 + x < g1 * g2 := by
  calc y * g1 + x < y * g1 + g1 := by omega
    _ = (y + 1) * g1 := by ring
    _ ≤ g2 * g1 := Nat.mul_le_mul_right g1 hy
    _ = g1 * g2 := Nat.mul_comm g2 g1

/-!
### The sampler invariant
-/

/-- Well-formedness of the sampler inputs.  The two `cell` inequalities are
satisfied (with equality on the left) by the exact value
`cell = radius / sqrt 2` the source computes: `2 * (r/sqrt 2)^2 = r^2` and
`4 * (r/sqrt 2)^2 = 2 r^2 ≥ r^2`. -/
structure PWF (inp : PoissonInput) : Prop where
  cellPos : 0 < inp.cell
  radPos : 0 < inp.radius
  cellUpper : 2 * inp.cell ^ 2 ≤ inp.radius ^ 2
  cellLower : inp.radius ^ 2 ≤ 4 * inp.cell ^ 2
  sizePos1 : 0 < inp.size.1
  sizePos2 : 0 < inp.size.2
  uRange : ∀ n, 0 ≤ inp.u n ∧ inp.u n < 1

/-- The loop invariant of `sample`: the grid is the right length, every
accepted sample is inside the (closed) area, registered in the grid at its
own flat cell index, the grid maps flat indices back to samples, samples are
pairwise at squared distance at least `radius^2`, and the active list never
exceeds the sample list.  The `interior` field records that every accepted
sample's cell coordinates are strictly inside the grid dimensions; it is the
hypothesis under which the remaining fields are preserved (a sample exactly
on the closed maximal boundary with cell coordinate `grid_size` breaks the
grid bookkeeping — see `c10_counterexample` and `c5_counterexample`). -/
structure PInv (inp : PoissonInput) (S : PState) : Prop where
  gridLen : S.grid.length = gridCells inp
  inBounds : ∀ j, j < S.samples.length → inRect inp (S.samples.getD j (0, 0))
  interior : ∀ j, j < S.samples.length →
    (cellCoord inp (S.samples.getD j (0, 0))).1 < (gridSize inp).1 ∧
      (cellCoord inp (S.samples.getD j (0, 0))).2 < (gridSize inp).2
  gridSound : ∀ idx i, S.grid.getD idx none = some i →
    i < S.samples.length ∧ cellIdx inp (S.samples.getD i (0, 0)) = idx
  gridFull : ∀ j, j < S.samples.length →
    S.grid.getD (cellIdx inp (S.samples.getD j (0, 0))) none = some j
  sep : ∀ i j, i < S.samples.length → j < S.samples.length → i ≠ j →
    inp.radius ^ 2 ≤ distSq (S.samples.getD i (0, 0)) (S.samples.getD j (0, 0))
  activeLen : S.active.length ≤ S.samples.length

/-!
### Extraction lemmas for `isValid`
-/

theorem getD_append_lt {α : Type} (l l2 : List α) (j : ℕ) (d : α) (h : j < l.length) :
    (l ++ l2).getD j d = l.getD j d := by
  rw [List.getD_eq_getElem?_getD, List.getD_eq_getElem?_getD, List.getElem?_append_left h]

theorem getD_append_len {α : Type} (l : List α) (x : α) (d : α) :
    (l ++ [x]).getD l.length d = x := by
  rw [List.getD_eq_getElem?_getD]
  simp

theorem isValid_inRect {inp : PoissonInput} {grid : List (Option ℕ)}
    {samples : List (ℚ × ℚ)} {cand : ℚ × ℚ}
    (h : isValid inp grid samples cand = true) : inRect inp cand := by
  unfold isValid at h
  by_cases hr : inRect inp cand
  · exact hr
  · rw [if_neg hr] at h
    exact absurd h (by simp)

theorem isValid_checks {inp : PoissonInput} {grid : List (Option ℕ)}
    {samples : List (ℚ × ℚ)} {cand : ℚ × ℚ}
    (h : isValid inp grid samples cand = true) :
    ∀ idx ∈ readIdxs inp cand, ∀ i, grid.getD idx none = some i →
      ¬ distSq cand (samples.getD i (0, 0)) < inp.radius ^ 2 := by
  intro idx hidx i hsome
  have hr := isValid_inRect h
  unfold isValid at h
  rw [if_pos hr] at h
  rw [List.all_eq_true] at h
  have hpt := h idx hidx
  rw [hsome] at hpt
  have hpt2 : (!(decide (distSq cand (samples.getD i (0, 0)) < inp.radius ^ 2))) = true := hpt
  rw [Bool.not_eq_true', decide_eq_false_iff_not] at hpt2
  exact hpt2

/-- Membership in the neighborhood index list from coordinate bounds. -/
theorem mem_readIdxs {inp : PoissonInput} {cand : ℚ × ℚ} {x y : ℕ}
    (hx1 : (cellCoord inp cand).1 - 2 ≤ x)
    (hx2 : x ≤ min ((cellCoord inp cand).1 + 2) ((gridSize inp).1 - 1))
    (hy1 : (cellCoord inp cand).2 - 2 ≤ y)
    (hy2 : y ≤ min ((cellCoord inp cand).2 + 2) ((gridSize inp).2 - 1)) :
    y * (gridSize inp).1 + x ∈ readIdxs inp cand := by
  unfold readIdxs
  rw [List.mem_flatMap]
  refine ⟨y - ((cellCoord inp cand).2 - 2), ?_, ?_⟩
  · rw [List.mem_range]
    omega
  · rw [List.mem_map]
    refine ⟨x - ((cellCoord inp cand).1 - 2), ?_, ?_⟩
    · rw [List.mem_range]
      omega
    · have e1 : (cellCoord inp cand).2 - 2 + (y - ((cellCoord inp cand).2 - 2)) = y := by
        omega
      have e2 : (cellCoord inp cand).1 - 2 + (x - ((cellCoord inp cand).1 - 2)) = x := by
        omega
      rw [e1, e2]

/-- Central coverage lemma: a candidate accepted by `is_valid` is at squared
distance at least `radius^2` from every accepted sample, provided the
invariant holds (every sample is registered at its in-range cell). -/
theorem isValid_far {inp : PoissonInput} (wf : PWF inp) {S : PState} (hinv : PInv inp S)
    {cand : ℚ × ℚ} (hv : isValid inp S.grid S.samples cand = true) :
    ∀ j, j < S.samples.length →
      inp.radius ^ 2 ≤ distSq cand (S.samples.getD j (0, 0)) := by
  intro j hj
  by_contra hclose
  rw [not_le] at hclose
  have hrect : inRect inp cand := isValid_inRect hv
  have hrectj : inRect inp (S.samples.getD j (0, 0)) := hinv.inBounds j hj
  set sj : ℚ × ℚ := S.samples.getD j (0, 0) with hsj
  -- componentwise distance below 2 * cell
  have hc2 : 0 < 2 * inp.cell := by linarith [wf.cellPos]
  have hdx : |cand.1 - sj.1| < 2 * inp.cell := by
    have h1 : (cand.1 - sj.1) ^ 2 ≤ distSq cand sj := by
      unfold distSq
      nlinarith [sq_nonneg (cand.2 - sj.2)]
    have h2 : (cand.1 - sj.1) ^ 2 < 4 * inp.cell ^ 2 :=
      lt_of_le_of_lt h1 (lt_of_lt_of_le hclose wf.cellLower)
    rw [show (4 : ℚ) * inp.cell ^ 2 = (2 * inp.cell) ^ 2 by ring] at h2
    exact abs_lt_of_sq_lt_sq h2 hc2.le
  have hdy : |cand.2 - sj.2| < 2 * inp.cell := by
    have h1 : (cand.2 - sj.2) ^ 2 ≤ distSq cand sj := by
      unfold distSq
      nlinarith [sq_nonneg (cand.1 - sj.1)]
    have h2 : (cand.2 - sj.2) ^ 2 < 4 * inp.cell ^ 2 :=
      lt_of_le_of_lt h1 (lt_of_lt_of_le hclose wf.cellLower)
    rw [show (4 : ℚ) * inp.cell ^ 2 = (2 * inp.cell) ^ 2 by ring] at h2
    exact abs_lt_of_sq_lt_sq h2 hc2.le
  -- cell coordinates of sj lie in the scanned window
  have hnx := cells_near wf.cellPos hrect.1 hrectj.1 hdx
  have hny := cells_near wf.cellPos hrect.2.2.1 hrectj.2.2.1 hdy
  have hintj := hinv.interior j hj
  rw [← hsj] at hintj
  have hmem : (cellCoord inp sj).2 * (gridSize inp).1 + (cellCoord inp sj).1 ∈
      readIdxs inp cand := by
    apply mem_readIdxs
    · unfold cellCoord
      omega
    · unfold cellCoord at hnx hintj ⊢
      omega
    · unfold cellCoord
      omega
    · unfold cellCoord at hny hintj ⊢
      omega
  have hreg := hinv.gridFull j hj
  have := isValid_checks hv _ hmem j (by rw [← hreg]; rfl)
  exact this hclose

theorem getD_set_self {α : Type} (l : List α) (i : ℕ) (v d : α) (h : i < l.length) :
    (l.set i v).getD i d = v := by
  rw [List.getD_eq_getElem?_getD, List.getElem?_set_self h]
  rfl

theorem getD_set_ne {α : Type} (l : List α) (i j : ℕ) (v d : α) (h : i ≠ j) :
    (l.set i v).getD j d = l.getD j d := by
  rw [List.getD_eq_getElem?_getD, List.getElem?_set_ne h, ← List.getD_eq_getElem?_getD]

theorem getD_replicate_none (n i : ℕ) :
    (List.replicate n (none : Option ℕ)).getD i none = none := by
  rcases Nat.lt_or_ge i n with h | h
  · rw [List.getD_eq_getElem?_getD]
    simp [List.getElem?_replicate, h]
  · rw [List.getD_eq_getElem?_getD, List.getElem?_eq_none (by simpa using h)]
    rfl

/-- `is_valid` acceptance preserves the loop invariant when the accepted
candidate's cell coordinates lie inside the grid. -/
theorem pInv_accept {inp : PoissonInput} (wf : PWF inp) {S : PState} (hinv : PInv inp S)
    {cand : ℚ × ℚ} (hv : isValid inp S.grid S.samples cand = true)
    (hcand : (cellCoord inp cand).1 < (gridSize inp).1 ∧
      (cellCoord inp cand).2 < (gridSize inp).2)
    (pos2 : ℕ) : PInv inp (pAccept inp S cand pos2) := by
  have hfar := isValid_far wf hinv hv
  have hrect := isValid_inRect hv
  have hwlt : cellIdx inp cand < S.grid.length := by
    rw [hinv.gridLen]
    exact flat_idx_lt hcand.1 hcand.2
  have hnotsame : ∀ j, j < S.samples.length →
      cellCoord inp (S.samples.getD j (0, 0)) ≠ cellCoord inp cand := by
    intro j hj heq
    have hrectj := hinv.inBounds j hj
    have hx : |(S.samples.getD j (0, 0)).1 - cand.1| < inp.cell := by
      apply same_cell_close wf.cellPos hrectj.1 hrect.1
      exact congrArg Prod.fst heq
    have hy : |(S.samples.getD j (0, 0)).2 - cand.2| < inp.cell := by
      apply same_cell_close wf.cellPos hrectj.2.2.1 hrect.2.2.1
      exact congrArg Prod.snd heq
    have hxa := abs_lt.mp hx
    have hya := abs_lt.mp hy
    have hlt : distSq cand (S.samples.getD j (0, 0)) < 2 * inp.cell ^ 2 := by
      unfold distSq
      nlinarith [hxa.1, hxa.2, hya.1, hya.2]
    have := hfar j hj
    have h2 := wf.cellUpper
    linarith
  have hneidx : ∀ j, j < S.samples.length →
      cellIdx inp (S.samples.getD j (0, 0)) ≠ cellIdx inp cand := by
    intro j hj heq
    apply hnotsame j hj
    have hj2 := hinv.interior j hj
    have := flat_idx_inj hj2.1 hcand.1 heq
    exact Prod.ext this.1 this.2
  have hlen : (pAccept inp S cand pos2).samples.length = S.samples.length + 1 := by
    simp [pAccept]
  refine ⟨?_, ?_, ?_, ?_, ?_, ?_, ?_⟩
  · simp [pAccept, hinv.gridLen]
  · intro j hj
    rw [hlen] at hj
    rcases Nat.lt_or_ge j S.samples.length with h | h
    · show inRect inp ((S.samples ++ [cand]).getD j (0, 0))
      rw [getD_append_lt _ _ _ _ h]
      exact hinv.inBounds j h
    · have : j = S.samples.length := by omega
      subst this
      show inRect inp ((S.samples ++ [cand]).getD S.samples.length (0, 0))
      rw [getD_append_len]
      exact hrect
  · intro j hj
    rw [hlen] at hj
    rcases Nat.lt_or_ge j S.samples.length with h | h
    · show _ ∧ _
      rw [show (pAccept inp S cand pos2).samples = S.samples ++ [cand] from rfl,
        getD_append_lt _ _ _ _ h]
      exact hinv.interior j h
    · have : j = S.samples.length := by omega
      subst this
      rw [show (pAccept inp S cand pos2).samples = S.samples ++ [cand] from rfl,
        getD_append_len]
      exact hcand
  · intro idx i hsome
    rw [show (pAccept inp S cand pos2).grid =
      S.grid.set (cellIdx inp cand) (some S.samples.length) from rfl] at hsome
    rw [hlen]
    rw [show (pAccept inp S cand pos2).samples = S.samples ++ [cand] from rfl]
    by_cases he : cellIdx inp cand = idx
    · rw [← he, getD_set_self _ _ _ _ hwlt] at hsome
      injection hsome with hsome
      rw [← hsome, ← he, getD_append_len]
      exact ⟨Nat.lt_succ_self _, rfl⟩
    · rw [getD_set_ne _ _ _ _ _ he] at hsome
      have := hinv.gridSound idx i hsome
      rw [getD_append_lt _ _ _ _ this.1]
      exact ⟨Nat.lt_succ_of_lt this.1, this.2⟩
  · intro j hj
    rw [hlen] at hj
    rw [show (pAccept inp S cand pos2).grid =
      S.grid.set (cellIdx inp cand) (some S.samples.length) from rfl]
    rw [show (pAccept inp S cand pos2).samples = S.samples ++ [cand] from rfl]
    rcases Nat.lt_or_ge j S.samples.length with h | h
    · rw [getD_append_lt _ _ _ _ h, getD_set_ne _ _ _ _ _ (fun he => hneidx j h he.symm)]
      exact hinv.gridFull j h
    · have : j = S.samples.length := by omega
      subst this
      rw [getD_append_len, getD_set_self _ _ _ _ hwlt]
  · intro i j hi hj hne
    rw [hlen] at hi hj
    rw [show (pAccept inp S cand pos2).samples = S.samples ++ [cand] from rfl]
    rcases Nat.lt_or_ge i S.samples.length with h1 | h1 <;>
      rcases Nat.lt_or_ge j S.samples.length with h2 | h2
    · rw [getD_append_lt _ _ _ _ h1, getD_append_lt _ _ _ _ h2]
      exact hinv.sep i j h1 h2 hne
    · have : j = S.samples.length := by omega
      subst this
      rw [getD_append_lt _ _ _ _ h1, getD_append_len]
      rw [distSq_comm]
      exact hfar i h1
    · have : i = S.samples.length := by omega
      subst this
      rw [getD_append_len, getD_append_lt _ _ _ _ h2]
      exact hfar j h2
    · omega
  · show (S.active ++ [cand]).length ≤ (S.samples ++ [cand]).length
    simp [hinv.activeLen]

/-- Rejection (removal from the active list) preserves the loop invariant. -/
theorem pInv_reject {inp : PoissonInput} {S : PState} (hinv : PInv inp S)
    (idx pos2 : ℕ) :
    PInv inp { S with active := S.active.eraseIdx idx, pos := pos2 } := by
  refine ⟨hinv.gridLen, hinv.inBounds, hinv.interior, hinv.gridSound, hinv.gridFull,
    hinv.sep, ?_⟩
  show (S.active.eraseIdx idx).length ≤ S.samples.length
  have h := List.length_eraseIdx (l := S.active) (i := idx)
  have h2 := hinv.activeLen
  split at h <;> omega

/-- The seeded initial state satisfies the loop invariant. -/
theorem pInv_init {inp : PoissonInput} (wf : PWF inp) : PInv inp (pInit inp) := by
  set initial : ℚ × ℚ := (inp.u 0 * inp.size.1, inp.u 1 * inp.size.2) with hini
  have hu0 := wf.uRange 0
  have hu1 := wf.uRange 1
  have hb1 : 0 ≤ initial.1 := mul_nonneg hu0.1 wf.sizePos1.le
  have hb2 : 0 ≤ initial.2 := mul_nonneg hu1.1 wf.sizePos2.le
  have hl1 : initial.1 < inp.size.1 := by
    calc inp.u 0 * inp.size.1 < 1 * inp.size.1 :=
          mul_lt_mul_of_pos_right hu0.2 wf.sizePos1
      _ = inp.size.1 := one_mul _
  have hl2 : initial.2 < inp.size.2 := by
    calc inp.u 1 * inp.size.2 < 1 * inp.size.2 :=
          mul_lt_mul_of_pos_right hu1.2 wf.sizePos2
      _ = inp.size.2 := one_mul _
  have hint : (cellCoord inp initial).1 < (gridSize inp).1 ∧
      (cellCoord inp initial).2 < (gridSize inp).2 :=
    ⟨cell_lt_grid wf.cellPos hb1 hl1, cell_lt_grid wf.cellPos hb2 hl2⟩
  have hglen : ((List.replicate (gridCells inp) (none : Option ℕ)).length = gridCells inp) := by
    simp
  have hwlt : cellIdx inp initial < gridCells inp := flat_idx_lt hint.1 hint.2
  have hsam : (pInit inp).samples = [initial] := rfl
  refine ⟨?_, ?_, ?_, ?_, ?_, ?_, ?_⟩
  · show ((List.replicate (gridCells inp) none).set (cellIdx inp initial) (some 0)).length = _
    simp
  · intro j hj
    rw [hsam] at hj ⊢
    simp only [List.length_singleton] at hj
    have : j = 0 := by omega
    subst this
    exact ⟨hb1, hl1.le, hb2, hl2.le⟩
  · intro j hj
    rw [hsam] at hj ⊢
    simp only [List.length_singleton] at hj
    have : j = 0 := by omega
    subst this
    exact hint
  · intro idx i hsome
    rw [show (pInit inp).grid =
      (List.replicate (gridCells inp) none).set (cellIdx inp initial) (some 0) from rfl] at hsome
    by_cases he : cellIdx inp initial = idx
    · rw [← he, getD_set_self _ _ _ _ (by rw [hglen]; exact hwlt)] at hsome
      injection hsome with hsome
      rw [hsam, ← hsome, ← he]
      exact ⟨by simp, rfl⟩
    · rw [getD_set_ne _ _ _ _ _ he, getD_replicate_none] at hsome
      exact absurd hsome (by simp)
  · intro j hj
    rw [hsam] at hj
    simp only [List.length_singleton] at hj
    have : j = 0 := by omega
    subst this
    rw [show (pInit inp).grid =
      (List.replicate (gridCells inp) none).set (cellIdx inp initial) (some 0) from rfl, hsam]
    rw [show ([initial].getD 0 (0, 0)) = initial from rfl]
    rw [getD_set_self _ _ _ _ (by rw [hglen]; exact hwlt)]
  · intro i j hi hj hne
    rw [hsam] at hi hj
    simp only [List.length_singleton] at hi hj
    omega
  · show (pInit inp).active.length ≤ (pInit inp).samples.length
    rfl

/-- Every sample's cell coordinates lie inside the grid dimensions. -/
def InteriorList (inp : PoissonInput) (l : List (ℚ × ℚ)) : Prop :=
  ∀ p ∈ l, (cellCoord inp p).1 < (gridSize inp).1 ∧ (cellCoord inp p).2 < (gridSize inp).2

instance (inp : PoissonInput) (l : List (ℚ × ℚ)) : Decidable (InteriorList inp l) := by
  unfold InteriorList
  infer_instance

/-- Main induction: the loop invariant holds at every step of a run whose
accepted samples (up to step `N`) all lie in interior cells. -/
theorem pInv_run {inp : PoissonInput} (wf : PWF inp) {N : ℕ}
    (hint : InteriorList inp (prun inp N).samples) :
    ∀ n, n ≤ N → PInv inp (prun inp n) := by
  intro n
  induction n with
  | zero =>
    intro _
    exact pInv_init wf
  | succ n ih =>
    intro hn
    have hinv := ih (le_trans (Nat.le_succ n) hn)
    show PInv inp (pstep inp (prun inp n))
    by_cases hA : (prun inp n).active = []
    · rw [pstep_of_empty inp hA]
      exact hinv
    · rcases hfc : findCand inp (prun inp n).grid (prun inp n).samples
          (pickSample inp (prun inp n)) ((prun inp n).pos + 1) inp.k with ⟨ocand, pos2⟩
      cases ocand with
      | none =>
        rw [pstep_eq_reject hA hfc]
        exact pInv_reject hinv _ _
      | some cand =>
        rw [pstep_eq_accept hA hfc]
        apply pInv_accept wf hinv (findCand_some hfc) ?_ pos2
        have hmem : cand ∈ (prun inp (n + 1)).samples := by
          rw [show prun inp (n + 1) = pstep inp (prun inp n) from rfl,
            pstep_eq_accept hA hfc]
          exact List.mem_append_right _ (by simp)
        exact hint cand (prun_samples_mono inp hn cand hmem)

/-- The grid registration is injective, so there are never more samples than
grid cells. -/
theorem samples_le_cells {inp : PoissonInput} {S : PState} (hinv : PInv inp S) :
    S.samples.length ≤ gridCells inp := by
  have hinj : Function.Injective
      (fun j : Fin S.samples.length =>
        (⟨cellIdx inp (S.samples.getD j (0, 0)),
          by
            have h := hinv.interior j j.2
            exact flat_idx_lt h.1 h.2⟩ : Fin (gridCells inp))) := by
    intro j1 j2 he
    have he2 : cellIdx inp (S.samples.getD j1 (0, 0)) =
        cellIdx inp (S.samples.getD j2 (0, 0)) := by
      simpa using he
    have g1 := hinv.gridFull j1 j1.2
    have g2 := hinv.gridFull j2 j2.2
    rw [he2, g2] at g1
    injection g1 with g1
    exact Fin.ext g1.symm
  have := Fintype.card_le_of_injective _ hinj
  simpa using this

/-- The index picked from the active list is always in range. -/
theorem pickIdx_lt {inp : PoissonInput} (wf : PWF inp) {S : PState}
    (hA : S.active ≠ []) : pickIdx inp S < S.active.length := by
  have hlen : 0 < S.active.length := List.length_pos.mpr hA
  have hu := wf.uRange S.pos
  have hlenq : (0 : ℚ) < (S.active.length : ℚ) := by exact_mod_cast hlen
  have h0 : 0 ≤ inp.u S.pos * (S.active.length : ℚ) := mul_nonneg hu.1 hlenq.le
  have h1 : inp.u S.pos * (S.active.length : ℚ) < (S.active.length : ℚ) := by
    calc inp.u S.pos * (S.active.length : ℚ) < 1 * (S.active.length : ℚ) :=
          mul_lt_mul_of_pos_right hu.2 hlenq
      _ = (S.active.length : ℚ) := one_mul _
  unfold pickIdx
  rw [ratTruncToNat_eq_floor_toNat h0]
  have h2 : ⌊inp.u S.pos * (S.active.length : ℚ)⌋ < (S.active.length : ℤ) :=
    Int.floor_lt.mpr (by exact_mod_cast h1)
  omega

/-!
### Termination
-/

/-- Lexicographic progress measure: accepted samples fill grid cells (at most
`gridCells` of them), and otherwise the active list shrinks. -/
def pmeasure (inp : PoissonInput) (S : PState) : ℕ :=
  (gridCells inp + 1 - S.samples.length) * (gridCells inp + 2) + S.active.length

theorem pstep_measure_lt {inp : PoissonInput} (wf : PWF inp) {S : PState}
    (hinv : PInv inp S) (hA : S.active ≠ []) :
    pmeasure inp (pstep inp S) < pmeasure inp S := by
  have hsl := samples_le_cells hinv
  have hpick := pickIdx_lt wf hA
  rcases hfc : findCand inp S.grid S.samples (pickSample inp S) (S.pos + 1) inp.k with
    ⟨ocand, pos2⟩
  cases ocand with
  | none =>
    rw [pstep_eq_reject hA hfc]
    unfold pmeasure
    have he : (S.active.eraseIdx (pickIdx inp S)).length = S.active.length - 1 := by
      have h := List.length_eraseIdx (l := S.active) (i := pickIdx inp S)
      rw [if_pos hpick] at h
      exact h
    simp only [he]
    omega
  | some cand =>
    rw [pstep_eq_accept hA hfc]
    unfold pmeasure
    have h1 : (pAccept inp S cand pos2).samples.length = S.samples.length + 1 := by
      simp [pAccept]
    have h2 : (pAccept inp S cand pos2).active.length = S.active.length + 1 := by
      simp [pAccept]
    rw [h1, h2]
    have hd : gridCells inp + 1 - (S.samples.length + 1) = gridCells inp - S.samples.length := by
      omega
    have hd2 : gridCells inp + 1 - S.samples.length =
        (gridCells inp - S.samples.length) + 1 := by
      omega
    rw [hd, hd2]
    have hmul : ((gridCells inp - S.samples.length) + 1) * (gridCells inp + 2) =
        (gridCells inp - S.samples.length) * (gridCells inp + 2) + (gridCells inp + 2) := by
      ring
    rw [hmul]
    omega

theorem pmeasure_init (inp : PoissonInput) :
    pmeasure inp (prun inp 0) = gridCells inp * (gridCells inp + 2) + 1 := by
  show (gridCells inp + 1 - 1) * (gridCells inp + 2) + 1 = _
  rw [show gridCells inp + 1 - 1 = gridCells inp from rfl]

theorem pmeasure_pos_active (inp : PoissonInput) {S : PState} (h : S.active ≠ []) :
    1 ≤ pmeasure inp S := by
  have : 0 < S.active.length := List.length_pos.mpr h
  unfold pmeasure
  omega

/-- Under the invariant hypotheses the loop empties its active list after at
most `gridCells * (gridCells + 2) + 1` iterations. -/
theorem active_empties {inp : PoissonInput} (wf : PWF inp)
    (hint : InteriorList inp (psample inp)) :
    ∃ n, n ≤ gridCells inp * (gridCells inp + 2) + 1 ∧ (prun inp n).active = [] := by
  set bound : ℕ := gridCells inp * (gridCells inp + 2) + 1 with hbound
  by_contra hno
  push_neg at hno
  have hne : ∀ n, n ≤ bound → (prun inp n).active ≠ [] := fun n hn => hno n hn
  have hinvs : ∀ n, n ≤ bound → PInv inp (prun inp n) := by
    intro n hn
    apply pInv_run wf hint
    unfold pfuel
    rw [hbound] at hn
    omega
  have hclaim : ∀ n, n ≤ bound → pmeasure inp (prun inp n) + n ≤ bound := by
    intro n
    induction n with
    | zero =>
      intro _
      rw [pmeasure_init]
    | succ n ih =>
      intro hn
      have hn' : n ≤ bound := by omega
      have hdec : pmeasure inp (prun inp (n + 1)) < pmeasure inp (prun inp n) :=
        pstep_measure_lt wf (hinvs n hn') (hne n hn')
      have := ih hn'
      omega
  have hfin := hclaim bound (le_refl bound)
  have hpos := pmeasure_pos_active inp (hne bound (le_refl bound))
  omega

/-- Claim C6 (amended): for every well-formed input (`radius > 0`, positive
finite area, any `k`, any stream, `cell` as computed from the radius) whose
accepted candidates all fall in grid-interior cells, the sampler terminates —
the active list is empty after at most `gridCells * (gridCells + 2) + 1`
iterations, with no explicit iteration cap — and unconditionally every
iteration either strictly grows the accepted-sample count or strictly
shrinks the active list.  (Without the interior-cell condition termination
can fail: see `c6_counterexample`.) -/
theorem c6_termination (inp : PoissonInput) (wf : PWF inp)
    (hint : InteriorList inp (psample inp)) :
    (∃ n, n ≤ gridCells inp * (gridCells inp + 2) + 1 ∧ (prun inp n).active = []) ∧
    (∀ S : PState, S.active ≠ [] →
      (pstep inp S).samples.length = S.samples.length + 1 ∨
      ((pstep inp S).active.length + 1 = S.active.length ∧
        (pstep inp S).samples = S.samples)) := by
  constructor
  · exact active_empties wf hint
  · intro S hA
    rcases hfc : findCand inp S.grid S.samples (pickSample inp S) (S.pos + 1) inp.k with
      ⟨ocand, pos2⟩
    cases ocand with
    | none =>
      right
      rw [pstep_eq_reject hA hfc]
      constructor
      · show (S.active.eraseIdx (pickIdx inp S)).length + 1 = S.active.length
        have h := List.length_eraseIdx (l := S.active) (i := pickIdx inp S)
        rw [if_pos (pickIdx_lt wf hA)] at h
        have := List.length_pos.mpr hA
        omega
      · rfl
    | some cand =>
      left
      rw [pstep_eq_accept hA hfc]
      simp [pAccept]

/-- Claim C5 (amended): for every well-formed input whose accepted samples
all fall in grid-interior cells, any two distinct accepted samples of
`sample()` are at squared distance at least `radius^2` (i.e. at distance at
least `radius`).  (Without the interior-cell condition a sample accepted on
the closed maximal boundary is registered at a wrong flat index and the 5×5
neighborhood check can subsequently miss it: see `c5_counterexample`.) -/
theorem c5_min_separation (inp : PoissonInput) (wf : PWF inp)
    (hint : InteriorList inp (psample inp)) :
    ∀ i j, i < (psample inp).length → j < (psample inp).length → i ≠ j →
      inp.radius ^ 2 ≤ distSq ((psample inp).getD i (0, 0)) ((psample inp).getD j (0, 0)) :=
  (pInv_run wf hint (pfuel inp) (le_refl _)).sep

/-!
### A concrete terminating run (witness input)

`seed`-stream draws `1/4, 1/4, 0, 0, ...`; the candidate offset is the
constant `(2*sqrt2f32, 0)` (direction `(1, 0)` from angle draw `0` —
`cos 0 = 1`, `sin 0 = 0` are exact in `f32` — at distance `2*sqrt2f32`,
inside the annulus `[radius, 2*radius) = [2, 4)`); `radius = 2`,
`size = (4*sqrt2f32, 4*sqrt2f32)`, `k = 1`, and `cell = sqrt2f32` is the
exact `f32` value of `radius / 2.0_f32.sqrt()`. -/
def inpW : PoissonInput :=
  { u := fun n => if n < 2 then 1/4 else 0
    off := fun _ _ => (2 * sqrt2f32, 0)
    radius := 2
    size := (4 * sqrt2f32, 4 * sqrt2f32)
    k := 1
    cell := sqrt2f32 }

theorem gridSize_inpW : gridSize inpW = (4, 4) := by
  norm_num [gridSize, inpW, sqrt2f32, Prod.ext_iff]
  all_goals decide

theorem gridCells_inpW : gridCells inpW = 16 := by
  unfold gridCells
  rw [gridSize_inpW]
  decide

def gridW0 : List (Option ℕ) := (List.replicate 16 (none : Option ℕ)).set 5 (some 0)

def gridW1 : List (Option ℕ) := gridW0.set 7 (some 1)

theorem gridW0_getD (idx : ℕ) : gridW0.getD idx none = if idx = 5 then some 0 else none := by
  unfold gridW0
  by_cases h : idx = 5
  · subst h
    rw [getD_set_self _ _ _ _ (by simp)]
    simp
  · rw [getD_set_ne _ _ _ _ _ (fun he => h he.symm), getD_replicate_none]
    simp [h]

theorem gridW1_getD (idx : ℕ) :
    gridW1.getD idx none =
      if idx = 7 then some 1 else if idx = 5 then some 0 else none := by
  unfold gridW1
  by_cases h : idx = 7
  · subst h
    rw [getD_set_self _ _ _ _ (by simp [gridW0])]
    simp
  · rw [getD_set_ne _ _ _ _ _ (fun he => h he.symm), gridW0_getD]
    simp [h]

theorem cellCoord_W_A : cellCoord inpW (sqrt2f32, sqrt2f32) = (1, 1) := by
  norm_num [cellCoord, inpW, ratTruncToNat, ratTrunc, sqrt2f32, Prod.ext_iff]

theorem cellIdx_W_A : cellIdx inpW (sqrt2f32, sqrt2f32) = 5 := by
  unfold cellIdx
  rw [cellCoord_W_A, gridSize_inpW]
  decide

theorem initW_eq : ((inpW.u 0 * inpW.size.1, inpW.u 1 * inpW.size.2) : ℚ × ℚ) =
    (sqrt2f32, sqrt2f32) := by
  norm_num [inpW, sqrt2f32, Prod.ext_iff]

theorem prunW_0 :
    prun inpW 0 =
      { grid := gridW0
        samples := [(sqrt2f32, sqrt2f32)]
        active := [(sqrt2f32, sqrt2f32)]
        pos := 2 } := by
  show pInit inpW = _
  unfold pInit gridW0
  rw [gridCells_inpW, initW_eq, cellIdx_W_A]

theorem cellCoord_W_B : cellCoord inpW (3 * sqrt2f32, sqrt2f32) = (3, 1) := by
  norm_num [cellCoord, inpW, ratTruncToNat, ratTrunc, sqrt2f32, Prod.ext_iff]
  all_goals decide

theorem cellIdx_W_B : cellIdx inpW (3 * sqrt2f32, sqrt2f32) = 7 := by
  unfold cellIdx
  rw [cellCoord_W_B, gridSize_inpW]
  decide

theorem readIdxs_W_B :
    readIdxs inpW (3 * sqrt2f32, sqrt2f32) =
      [1, 2, 3, 5, 6, 7, 9, 10, 11, 13, 14, 15] := by
  unfold readIdxs
  rw [cellCoord_W_B, gridSize_inpW]
  decide

theorem isValid_W_B : isValid inpW gridW0 [(sqrt2f32, sqrt2f32)] (3 * sqrt2f32, sqrt2f32) =
    true := by
  unfold isValid
  rw [if_pos (by norm_num [inRect, inpW, sqrt2f32]), readIdxs_W_B]
  simp only [List.all_cons, List.all_nil, Bool.and_eq_true, gridW0_getD]
  norm_num [distSq, inpW, sqrt2f32]

theorem findCand_W_1 :
    findCand inpW gridW0 [(sqrt2f32, sqrt2f32)] (sqrt2f32, sqrt2f32) 3 1 =
      (some (3 * sqrt2f32, sqrt2f32), 5) := by
  unfold findCand
  have hcand : (((sqrt2f32, sqrt2f32) : ℚ × ℚ).1 + (inpW.off (inpW.u 3) (inpW.u (3 + 1))).1,
      ((sqrt2f32, sqrt2f32) : ℚ × ℚ).2 + (inpW.off (inpW.u 3) (inpW.u (3 + 1))).2) =
      ((3 * sqrt2f32, sqrt2f32) : ℚ × ℚ) := by
    norm_num [inpW, Prod.ext_iff]
    ring
  rw [hcand, if_pos isValid_W_B]

theorem prunW_1 :
    prun inpW 1 =
      { grid := gridW1
        samples := [(sqrt2f32, sqrt2f32), (3 * sqrt2f32, sqrt2f32)]
        active := [(sqrt2f32, sqrt2f32), (3 * sqrt2f32, sqrt2f32)]
        pos := 5 } := by
  show pstep inpW (prun inpW 0) = _
  rw [prunW_0]
  have hfc : findCand inpW
      ({ grid := gridW0
         samples := [(sqrt2f32, sqrt2f32)]
         active := [(sqrt2f32, sqrt2f32)]
         pos := 2 } : PState).grid
      ({ grid := gridW0
         samples := [(sqrt2f32, sqrt2f32)]
         active := [(sqrt2f32, sqrt2f32)]
         pos := 2 } : PState).samples
      (pickSample inpW
        { grid := gridW0
          samples := [(sqrt2f32, sqrt2f32)]
          active := [(sqrt2f32, sqrt2f32)]
          pos := 2 })
      (({ grid := gridW0
          samples := [(sqrt2f32, sqrt2f32)]
          active := [(sqrt2f32, sqrt2f32)]
          pos := 2 } : PState).pos + 1) inpW.k = (some (3 * sqrt2f32, sqrt2f32), 5) := by
    have hpick : pickSample inpW
        { grid := gridW0
          samples := [(sqrt2f32, sqrt2f32)]
          active := [(sqrt2f32, sqrt2f32)]
          pos := 2 } = (sqrt2f32, sqrt2f32) := by
      norm_num [pickSample, pickIdx, inpW, ratTruncToNat, ratTrunc]
    rw [hpick]
    exact findCand_W_1
  rw [pstep_eq_accept (by simp) hfc]
  unfold pAccept gridW1
  rw [cellIdx_W_B]
  rfl

theorem isValid_W_B2 :
    isValid inpW gridW1 [(sqrt2f32, sqrt2f32), (3 * sqrt2f32, sqrt2f32)]
      (3 * sqrt2f32, sqrt2f32) = false := by
  unfold isValid
  rw [if_pos (by norm_num [inRect, inpW, sqrt2f32]), readIdxs_W_B]
  rw [List.all_eq_false]
  refine ⟨7, by decide, ?_⟩
  rw [gridW1_getD]
  norm_num [distSq, inpW]

theorem findCand_W_2 :
    findCand inpW gridW1 [(sqrt2f32, sqrt2f32), (3 * sqrt2f32, sqrt2f32)]
      (sqrt2f32, sqrt2f32) 6 1 = (none, 8) := by
  unfold findCand
  have hcand : (((sqrt2f32, sqrt2f32) : ℚ × ℚ).1 + (inpW.off (inpW.u 6) (inpW.u (6 + 1))).1,
      ((sqrt2f32, sqrt2f32) : ℚ × ℚ).2 + (inpW.off (inpW.u 6) (inpW.u (6 + 1))).2) =
      ((3 * sqrt2f32, sqrt2f32) : ℚ × ℚ) := by
    norm_num [inpW, Prod.ext_iff]
    ring
  rw [hcand, if_neg (by rw [isValid_W_B2]; exact Bool.false_ne_true)]
  rfl

theorem prunW_2 :
    prun inpW 2 =
      { grid := gridW1
        samples := [(sqrt2f32, sqrt2f32), (3 * sqrt2f32, sqrt2f32)]
        active := [(3 * sqrt2f32, sqrt2f32)]
        pos := 8 } := by
  show pstep inpW (prun inpW 1) = _
  rw [prunW_1]
  have hpick : pickSample inpW
      { grid := gridW1
        samples := [(sqrt2f32, sqrt2f32), (3 * sqrt2f32, sqrt2f32)]
        active := [(sqrt2f32, sqrt2f32), (3 * sqrt2f32, sqrt2f32)]
        pos := 5 } = (sqrt2f32, sqrt2f32) := by
    norm_num [pickSample, pickIdx, inpW, ratTruncToNat, ratTrunc]
  have hfc : findCand inpW
      ({ grid := gridW1
         samples := [(sqrt2f32, sqrt2f32), (3 * sqrt2f32, sqrt2f32)]
         active := [(sqrt2f32, sqrt2f32), (3 * sqrt2f32, sqrt2f32)]
         pos := 5 } : PState).grid
      ({ grid := gridW1
         samples := [(sqrt2f32, sqrt2f32), (3 * sqrt2f32, sqrt2f32)]
         active := [(sqrt2f32, sqrt2f32), (3 * sqrt2f32, sqrt2f32)]
         pos := 5 } : PState).samples
      (pickSample inpW
        { grid := gridW1
          samples := [(sqrt2f32, sqrt2f32), (3 * sqrt2f32, sqrt2f32)]
          active := [(sqrt2f32, sqrt2f32), (3 * sqrt2f32, sqrt2f32)]
          pos := 5 })
      (({ grid := gridW1
          samples := [(sqrt2f32, sqrt2f32), (3 * sqrt2f32, sqrt2f32)]
          active := [(sqrt2f32, sqrt2f32), (3 * sqrt2f32, sqrt2f32)]
          pos := 5 } : PState).pos + 1) inpW.k = (none, 8) := by
    rw [hpick]
    exact findCand_W_2
  rw [pstep_eq_reject (by simp) hfc]
  have hidx : pickIdx inpW
      { grid := gridW1
        samples := [(sqrt2f32, sqrt2f32), (3 * sqrt2f32, sqrt2f32)]
        active := [(sqrt2f32, sqrt2f32), (3 * sqrt2f32, sqrt2f32)]
        pos := 5 } = 0 := by
    norm_num [pickIdx, inpW, ratTruncToNat, ratTrunc]
  rw [hidx]
  rfl

theorem findCand_W_3 :
    findCand inpW gridW1 [(sqrt2f32, sqrt2f32), (3 * sqrt2f32, sqrt2f32)]
      (3 * sqrt2f32, sqrt2f32) 9 1 = (none, 11) := by
  unfold findCand
  rw [if_neg ?_]
  · rfl
  · unfold isValid
    rw [if_neg ?_]
    · exact Bool.false_ne_true
    · unfold inRect
      norm_num [inpW, sqrt2f32]

theorem prunW_3 :
    prun inpW 3 =
      { grid := gridW1
        samples := [(sqrt2f32, sqrt2f32), (3 * sqrt2f32, sqrt2f32)]
        active := []
        pos := 11 } := by
  show pstep inpW (prun inpW 2) = _
  rw [prunW_2]
  have hpick : pickSample inpW
      { grid := gridW1
        samples := [(sqrt2f32, sqrt2f32), (3 * sqrt2f32, sqrt2f32)]
        active := [(3 * sqrt2f32, sqrt2f32)]
        pos := 8 } = (3 * sqrt2f32, sqrt2f32) := by
    norm_num [pickSample, pickIdx, inpW, ratTruncToNat, ratTrunc]
  have hfc : findCand inpW
      ({ grid := gridW1
         samples := [(sqrt2f32, sqrt2f32), (3 * sqrt2f32, sqrt2f32)]
         active := [(3 * sqrt2f32, sqrt2f32)]
         pos := 8 } : PState).grid
      ({ grid := gridW1
         samples := [(sqrt2f32, sqrt2f32), (3 * sqrt2f32, sqrt2f32)]
         active := [(3 * sqrt2f32, sqrt2f32)]
         pos := 8 } : PState).samples
      (pickSample inpW
        { grid := gridW1
          samples := [(sqrt2f32, sqrt2f32), (3 * sqrt2f32, sqrt2f32)]
          active := [(3 * sqrt2f32, sqrt2f32)]
          pos := 8 })
      (({ grid := gridW1
          samples := [(sqrt2f32, sqrt2f32), (3 * sqrt2f32, sqrt2f32)]
          active := [(3 * sqrt2f32, sqrt2f32)]
          pos := 8 } : PState).pos + 1) inpW.k = (none, 11) := by
    rw [hpick]
    exact findCand_W_3
  rw [pstep_eq_reject (by simp) hfc]
  have hidx : pickIdx inpW
      { grid := gridW1
        samples := [(sqrt2f32, sqrt2f32), (3 * sqrt2f32, sqrt2f32)]
        active := [(3 * sqrt2f32, sqrt2f32)]
        pos := 8 } = 0 := by
    norm_num [pickIdx, inpW, ratTruncToNat, ratTrunc]
  rw [hidx]
  rfl

theorem psample_W : psample inpW = [(sqrt2f32, sqrt2f32), (3 * sqrt2f32, sqrt2f32)] := by
  unfold psample
  have hfuel : pfuel inpW = 3 + 287 := by
    unfold pfuel
    rw [gridCells_inpW]
  rw [hfuel, prun_stable inpW (by rw [prunW_3]) 287, prunW_3]

theorem pwf_W : PWF inpW := by
  refine ⟨?_, ?_, ?_, ?_, ?_, ?_, ?_⟩
  · norm_num [inpW, sqrt2f32]
  · norm_num [inpW]
  · norm_num [inpW, sqrt2f32]
  · norm_num [inpW, sqrt2f32]
  · norm_num [inpW, sqrt2f32]
  · norm_num [inpW, sqrt2f32]
  · intro n
    by_cases h : n < 2
    · constructor
      · norm_num [inpW, h]
      · norm_num [inpW, h]
    · constructor
      · norm_num [inpW, h]
      · norm_num [inpW, h]

theorem interior_W : InteriorList inpW (psample inpW) := by
  rw [psample_W]
  intro p hp
  rw [gridSize_inpW]
  rcases List.mem_cons.mp hp with rfl | hp2
  · rw [cellCoord_W_A]
    exact ⟨by decide, by decide⟩
  · rcases List.mem_cons.mp hp2 with rfl | hp3
    · rw [cellCoord_W_B]
      exact ⟨by decide, by decide⟩
    · exact absurd hp3 (List.not_mem_nil p)

/-- Witness for `c5_min_separation`: on the concrete terminating run `inpW`
(two accepted samples) the hypotheses hold and the two samples are at squared
distance at least `radius^2`. -/
theorem c5_witness :
    inpW.radius ^ 2 ≤ distSq ((psample inpW).getD 0 (0, 0)) ((psample inpW).getD 1 (0, 0)) := by
  apply c5_min_separation inpW pwf_W interior_W 0 1 ?_ ?_ (by decide)
  · rw [psample_W]
    decide
  · rw [psample_W]
    decide

/-- Witness for `c6_termination`: the run `inpW` empties its active list
within the proved bound. -/
theorem c6_witness :
    ∃ n, n ≤ gridCells inpW * (gridCells inpW + 2) + 1 ∧ (prun inpW n).active = [] :=
  (c6_termination inpW pwf_W interior_W).1

/-!
### Claim C5 counterexample run

Stream draws `1/2, 1/2` (initial point at the area center), then `0`
everywhere except draw 7 (`3/4`).  The offset function returns
`(2*sqrt2f32, 0)` (length `2*sqrt2f32 ≈ 2.83`, inside the annulus `[2, 4)`)
except on distance-draw `3/4`, where it returns
`(2*sqrt2f32 - 1/10, 13/10)` (length `≈ 3.02`, also inside the annulus).
The second accepted candidate lands exactly on the closed maximal boundary
`x = size.x` (its cell column is `grid_size.x = 4`), so its grid registration
goes to flat index `2*4 + 4 = 12` — row 3, column 0 — instead of its true
cell; the third candidate's 5×5 neighborhood misses it and is accepted at
squared distance `17/10 < radius^2 = 4` from it. -/
def inpC5 : PoissonInput :=
  { u := fun n => if n < 2 then 1/2 else if n = 7 then 3/4 else 0
    off := fun _ d => if d = 3/4 then (2 * sqrt2f32 - 1/10, 13/10) else (2 * sqrt2f32, 0)
    radius := 2
    size := (4 * sqrt2f32, 4 * sqrt2f32)
    k := 1
    cell := sqrt2f32 }

theorem gridSize_inpC5 : gridSize inpC5 = (4, 4) := by
  norm_num [gridSize, inpC5, sqrt2f32, Prod.ext_iff]
  all_goals decide

theorem gridCells_inpC5 : gridCells inpC5 = 16 := by
  unfold gridCells
  rw [gridSize_inpC5]
  decide

def gridC0 : List (Option ℕ) := (List.replicate 16 (none : Option ℕ)).set 10 (some 0)

def gridC1 : List (Option ℕ) := gridC0.set 12 (some 1)

def gridC2 : List (Option ℕ) := gridC1.set 11 (some 2)

theorem gridC0_getD (idx : ℕ) : gridC0.getD idx none = if idx = 10 then some 0 else none := by
  unfold gridC0
  by_cases h : idx = 10
  · subst h
    rw [getD_set_self _ _ _ _ (by simp)]
    simp
  · rw [getD_set_ne _ _ _ _ _ (fun he => h he.symm), getD_replicate_none]
    simp [h]

theorem gridC1_getD (idx : ℕ) :
    gridC1.getD idx none =
      if idx = 12 then some 1 else if idx = 10 then some 0 else none := by
  unfold gridC1
  by_cases h : idx = 12
  · subst h
    rw [getD_set_self _ _ _ _ (by simp [gridC0])]
    simp
  · rw [getD_set_ne _ _ _ _ _ (fun he => h he.symm), gridC0_getD]
    simp [h]

theorem gridC2_getD (idx : ℕ) :
    gridC2.getD idx none =
      if idx = 11 then some 2
      else if idx = 12 then some 1 else if idx = 10 then some 0 else none := by
  unfold gridC2
  by_cases h : idx = 11
  · subst h
    rw [getD_set_self _ _ _ _ (by simp [gridC0, gridC1])]
    simp
  · rw [getD_set_ne _ _ _ _ _ (fun he => h he.symm), gridC1_getD]
    simp [h]

theorem cellCoord_C_A : cellCoord inpC5 (2 * sqrt2f32, 2 * sqrt2f32) = (2, 2) := by
  norm_num [cellCoord, inpC5, ratTruncToNat, ratTrunc, sqrt2f32, Prod.ext_iff]
  all_goals decide

theorem cellIdx_C_A : cellIdx inpC5 (2 * sqrt2f32, 2 * sqrt2f32) = 10 := by
  unfold cellIdx
  rw [cellCoord_C_A, gridSize_inpC5]
  decide

theorem cellCoord_C_B : cellCoord inpC5 (4 * sqrt2f32, 2 * sqrt2f32) = (4, 2) := by
  norm_num [cellCoord, inpC5, ratTruncToNat, ratTrunc, sqrt2f32, Prod.ext_iff]
  all_goals decide

theorem cellIdx_C_B : cellIdx inpC5 (4 * sqrt2f32, 2 * sqrt2f32) = 12 := by
  unfold cellIdx
  rw [cellCoord_C_B, gridSize_inpC5]
  decide

theorem cellCoord_C_C : cellCoord inpC5 (4 * sqrt2f32 - 1/10, 2 * sqrt2f32 + 13/10) = (3, 2) := by
  norm_num [cellCoord, inpC5, ratTruncToNat, ratTrunc, sqrt2f32, Prod.ext_iff]
  all_goals decide

theorem cellIdx_C_C : cellIdx inpC5 (4 * sqrt2f32 - 1/10, 2 * sqrt2f32 + 13/10) = 11 := by
  unfold cellIdx
  rw [cellCoord_C_C, gridSize_inpC5]
  decide

theorem readIdxs_C_B : readIdxs inpC5 (4 * sqrt2f32, 2 * sqrt2f32) = [2, 3, 6, 7, 10, 11, 14, 15] := by
  unfold readIdxs
  rw [cellCoord_C_B, gridSize_inpC5]
  decide

theorem readIdxs_C_C :
    readIdxs inpC5 (4 * sqrt2f32 - 1/10, 2 * sqrt2f32 + 13/10) = [1, 2, 3, 5, 6, 7, 9, 10, 11, 13, 14, 15] := by
  unfold readIdxs
  rw [cellCoord_C_C, gridSize_inpC5]
  decide

theorem initC5_eq : ((inpC5.u 0 * inpC5.size.1, inpC5.u 1 * inpC5.size.2) : ℚ × ℚ) =
    (2 * sqrt2f32, 2 * sqrt2f32) := by
  norm_num [inpC5, sqrt2f32, Prod.ext_iff]

theorem prunC5_0 :
    prun inpC5 0 =
      { grid := gridC0
        samples := [(2 * sqrt2f32, 2 * sqrt2f32)]
        active := [(2 * sqrt2f32, 2 * sqrt2f32)]
        pos := 2 } := by
  show pInit inpC5 = _
  unfold pInit gridC0
  rw [gridCells_inpC5, initC5_eq, cellIdx_C_A]

theorem isValid_C_B : isValid inpC5 gridC0 [(2 * sqrt2f32, 2 * sqrt2f32)] (4 * sqrt2f32, 2 * sqrt2f32) = true := by
  unfold isValid
  rw [if_pos (by norm_num [inRect, inpC5, sqrt2f32]), readIdxs_C_B]
  simp only [List.all_cons, List.all_nil, Bool.and_eq_true, gridC0_getD]
  norm_num [distSq, inpC5, sqrt2f32]

theorem findCand_C_1 :
    findCand inpC5 gridC0 [(2 * sqrt2f32, 2 * sqrt2f32)] (2 * sqrt2f32, 2 * sqrt2f32) 3 1 = (some (4 * sqrt2f32, 2 * sqrt2f32), 5) := by
  unfold findCand
  have hcand : (((2 * sqrt2f32, 2 * sqrt2f32) : ℚ × ℚ).1 + (inpC5.off (inpC5.u 3) (inpC5.u (3 + 1))).1,
      ((2 * sqrt2f32, 2 * sqrt2f32) : ℚ × ℚ).2 + (inpC5.off (inpC5.u 3) (inpC5.u (3 + 1))).2) =
      ((4 * sqrt2f32, 2 * sqrt2f32) : ℚ × ℚ) := by
    norm_num [inpC5, Prod.ext_iff]
    ring
  rw [hcand, if_pos isValid_C_B]

theorem prunC5_1 :
    prun inpC5 1 =
      { grid := gridC1
        samples := [(2 * sqrt2f32, 2 * sqrt2f32), (4 * sqrt2f32, 2 * sqrt2f32)]
        active := [(2 * sqrt2f32, 2 * sqrt2f32), (4 * sqrt2f32, 2 * sqrt2f32)]
        pos := 5 } := by
  show pstep inpC5 (prun inpC5 0) = _
  rw [prunC5_0]
  have hfc : findCand inpC5
      ({ grid := gridC0
         samples := [(2 * sqrt2f32, 2 * sqrt2f32)]
         active := [(2 * sqrt2f32, 2 * sqrt2f32)]
         pos := 2 } : PState).grid
      ({ grid := gridC0
         samples := [(2 * sqrt2f32, 2 * sqrt2f32)]
         active := [(2 * sqrt2f32, 2 * sqrt2f32)]
         pos := 2 } : PState).samples
      (pickSample inpC5
        { grid := gridC0
          samples := [(2 * sqrt2f32, 2 * sqrt2f32)]
          active := [(2 * sqrt2f32, 2 * sqrt2f32)]
          pos := 2 })
      (({ grid := gridC0
          samples := [(2 * sqrt2f32, 2 * sqrt2f32)]
          active := [(2 * sqrt2f32, 2 * sqrt2f32)]
          pos := 2 } : PState).pos + 1) inpC5.k = (some (4 * sqrt2f32, 2 * sqrt2f32), 5) := by
    have hpick : pickSample inpC5
        { grid := gridC0
          samples := [(2 * sqrt2f32, 2 * sqrt2f32)]
          active := [(2 * sqrt2f32, 2 * sqrt2f32)]
          pos := 2 } = (2 * sqrt2f32, 2 * sqrt2f32) := by
      norm_num [pickSample, pickIdx, inpC5, ratTruncToNat, ratTrunc]
    rw [hpick]
    exact findCand_C_1
  rw [pstep_eq_accept (by simp) hfc]
  unfold pAccept gridC1
  rw [cellIdx_C_B]
  rfl

theorem isValid_C_C : isValid inpC5 gridC1 [(2 * sqrt2f32, 2 * sqrt2f32), (4 * sqrt2f32, 2 * sqrt2f32)] (4 * sqrt2f32 - 1/10, 2 * sqrt2f32 + 13/10) = true := by
  unfold isValid
  rw [if_pos (by norm_num [inRect, inpC5, sqrt2f32]), readIdxs_C_C]
  simp only [List.all_cons, List.all_nil, Bool.and_eq_true, gridC1_getD]
  norm_num [distSq, inpC5, sqrt2f32]

theorem findCand_C_2 :
    findCand inpC5 gridC1 [(2 * sqrt2f32, 2 * sqrt2f32), (4 * sqrt2f32, 2 * sqrt2f32)] (2 * sqrt2f32, 2 * sqrt2f32) 6 1 = (some (4 * sqrt2f32 - 1/10, 2 * sqrt2f32 + 13/10), 8) := by
  unfold findCand
  have hcand : (((2 * sqrt2f32, 2 * sqrt2f32) : ℚ × ℚ).1 + (inpC5.off (inpC5.u 6) (inpC5.u (6 + 1))).1,
      ((2 * sqrt2f32, 2 * sqrt2f32) : ℚ × ℚ).2 + (inpC5.off (inpC5.u 6) (inpC5.u (6 + 1))).2) =
      ((4 * sqrt2f32 - 1/10, 2 * sqrt2f32 + 13/10) : ℚ × ℚ) := by
    norm_num [inpC5, Prod.ext_iff]
    ring
  rw [hcand, if_pos isValid_C_C]

theorem prunC5_2 :
    prun inpC5 2 =
      { grid := gridC2
        samples := [(2 * sqrt2f32, 2 * sqrt2f32), (4 * sqrt2f32, 2 * sqrt2f32), (4 * sqrt2f32 - 1/10, 2 * sqrt2f32 + 13/10)]
        active := [(2 * sqrt2f32, 2 * sqrt2f32), (4 * sqrt2f32, 2 * sqrt2f32), (4 * sqrt2f32 - 1/10, 2 * sqrt2f32 + 13/10)]
        pos := 8 } := by
  show pstep inpC5 (prun inpC5 1) = _
  rw [prunC5_1]
  have hfc : findCand inpC5
      ({ grid := gridC1
         samples := [(2 * sqrt2f32, 2 * sqrt2f32), (4 * sqrt2f32, 2 * sqrt2f32)]
         active := [(2 * sqrt2f32, 2 * sqrt2f32), (4 * sqrt2f32, 2 * sqrt2f32)]
         pos := 5 } : PState).grid
      ({ grid := gridC1
         samples := [(2 * sqrt2f32, 2 * sqrt2f32), (4 * sqrt2f32, 2 * sqrt2f32)]
         active := [(2 * sqrt2f32, 2 * sqrt2f32), (4 * sqrt2f32, 2 * sqrt2f32)]
         pos := 5 } : PState).samples
      (pickSample inpC5
        { grid := gridC1
          samples := [(2 * sqrt2f32, 2 * sqrt2f32), (4 * sqrt2f32, 2 * sqrt2f32)]
          active := [(2 * sqrt2f32, 2 * sqrt2f32), (4 * sqrt2f32, 2 * sqrt2f32)]
          pos := 5 })
      (({ grid := gridC1
          samples := [(2 * sqrt2f32, 2 * sqrt2f32), (4 * sqrt2f32, 2 * sqrt2f32)]
          active := [(2 * sqrt2f32, 2 * sqrt2f32), (4 * sqrt2f32, 2 * sqrt2f32)]
          pos := 5 } : PState).pos + 1) inpC5.k = (some (4 * sqrt2f32 - 1/10, 2 * sqrt2f32 + 13/10), 8) := by
    have hpick : pickSample inpC5
        { grid := gridC1
          samples := [(2 * sqrt2f32, 2 * sqrt2f32), (4 * sqrt2f32, 2 * sqrt2f32)]
          active := [(2 * sqrt2f32, 2 * sqrt2f32), (4 * sqrt2f32, 2 * sqrt2f32)]
          pos := 5 } = (2 * sqrt2f32, 2 * sqrt2f32) := by
      norm_num [pickSample, pickIdx, inpC5, ratTruncToNat, ratTrunc]
    rw [hpick]
    exact findCand_C_2
  rw [pstep_eq_accept (by simp) hfc]
  unfold pAccept gridC2
  rw [cellIdx_C_C]
  rfl

theorem isValid_C_B2 : isValid inpC5 gridC2 [(2 * sqrt2f32, 2 * sqrt2f32), (4 * sqrt2f32, 2 * sqrt2f32), (4 * sqrt2f32 - 1/10, 2 * sqrt2f32 + 13/10)] (4 * sqrt2f32, 2 * sqrt2f32) = false := by
  unfold isValid
  rw [if_pos (by norm_num [inRect, inpC5, sqrt2f32]), readIdxs_C_B]
  rw [List.all_eq_false]
  refine ⟨11, by decide, ?_⟩
  rw [gridC2_getD]
  norm_num [distSq, inpC5, sqrt2f32]

theorem findCand_C_3 :
    findCand inpC5 gridC2 [(2 * sqrt2f32, 2 * sqrt2f32), (4 * sqrt2f32, 2 * sqrt2f32), (4 * sqrt2f32 - 1/10, 2 * sqrt2f32 + 13/10)] (2 * sqrt2f32, 2 * sqrt2f32) 9 1 = (none, 11) := by
  unfold findCand
  have hcand : (((2 * sqrt2f32, 2 * sqrt2f32) : ℚ × ℚ).1 + (inpC5.off (inpC5.u 9) (inpC5.u (9 + 1))).1,
      ((2 * sqrt2f32, 2 * sqrt2f32) : ℚ × ℚ).2 + (inpC5.off (inpC5.u 9) (inpC5.u (9 + 1))).2) =
      ((4 * sqrt2f32, 2 * sqrt2f32) : ℚ × ℚ) := by
    norm_num [inpC5, Prod.ext_iff]
    ring
  rw [hcand, if_neg (by rw [isValid_C_B2]; exact Bool.false_ne_true)]
  rfl

theorem prunC5_3 :
    prun inpC5 3 =
      { grid := gridC2
        samples := [(2 * sqrt2f32, 2 * sqrt2f32), (4 * sqrt2f32, 2 * sqrt2f32), (4 * sqrt2f32 - 1/10, 2 * sqrt2f32 + 13/10)]
        active := [(4 * sqrt2f32, 2 * sqrt2f32), (4 * sqrt2f32 - 1/10, 2 * sqrt2f32 + 13/10)]
        pos := 11 } := by
  show pstep inpC5 (prun inpC5 2) = _
  rw [prunC5_2]
  have hfc : findCand inpC5
      ({ grid := gridC2
         samples := [(2 * sqrt2f32, 2 * sqrt2f32), (4 * sqrt2f32, 2 * sqrt2f32), (4 * sqrt2f32 - 1/10, 2 * sqrt2f32 + 13/10)]
         active := [(2 * sqrt2f32, 2 * sqrt2f32), (4 * sqrt2f32, 2 * sqrt2f32), (4 * sqrt2f32 - 1/10, 2 * sqrt2f32 + 13/10)]
         pos := 8 } : PState).grid
      ({ grid := gridC2
         samples := [(2 * sqrt2f32, 2 * sqrt2f32), (4 * sqrt2f32, 2 * sqrt2f32), (4 * sqrt2f32 - 1/10, 2 * sqrt2f32 + 13/10)]
         active := [(2 * sqrt2f32, 2 * sqrt2f32), (4 * sqrt2f32, 2 * sqrt2f32), (4 * sqrt2f32 - 1/10, 2 * sqrt2f32 + 13/10)]
         pos := 8 } : PState).samples
      (pickSample inpC5
        { grid := gridC2
          samples := [(2 * sqrt2f32, 2 * sqrt2f32), (4 * sqrt2f32, 2 * sqrt2f32), (4 * sqrt2f32 - 1/10, 2 * sqrt2f32 + 13/10)]
          active := [(2 * sqrt2f32, 2 * sqrt2f32), (4 * sqrt2f32, 2 * sqrt2f32), (4 * sqrt2f32 - 1/10, 2 * sqrt2f32 + 13/10)]
          pos := 8 })
      (({ grid := gridC2
          samples := [(2 * sqrt2f32, 2 * sqrt2f32), (4 * sqrt2f32, 2 * sqrt2f32), (4 * sqrt2f32 - 1/10, 2 * sqrt2f32 + 13/10)]
          active := [(2 * sqrt2f32, 2 * sqrt2f32), (4 * sqrt2f32, 2 * sqrt2f32), (4 * sqrt2f32 - 1/10, 2 * sqrt2f32 + 13/10)]
          pos := 8 } : PState).pos + 1) inpC5.k = (none, 11) := by
    have hpick : pickSample inpC5
        { grid := gridC2
          samples := [(2 * sqrt2f32, 2 * sqrt2f32), (4 * sqrt2f32, 2 * sqrt2f32), (4 * sqrt2f32 - 1/10, 2 * sqrt2f32 + 13/10)]
          active := [(2 * sqrt2f32, 2 * sqrt2f32), (4 * sqrt2f32, 2 * sqrt2f32), (4 * sqrt2f32 - 1/10, 2 * sqrt2f32 + 13/10)]
          pos := 8 } = (2 * sqrt2f32, 2 * sqrt2f32) := by
      norm_num [pickSample, pickIdx, inpC5, ratTruncToNat, ratTrunc]
    rw [hpick]
    exact findCand_C_3
  rw [pstep_eq_reject (by simp) hfc]
  have hidx : pickIdx inpC5
      { grid := gridC2
        samples := [(2 * sqrt2f32, 2 * sqrt2f32), (4 * sqrt2f32, 2 * sqrt2f32), (4 * sqrt2f32 - 1/10, 2 * sqrt2f32 + 13/10)]
        active := [(2 * sqrt2f32, 2 * sqrt2f32), (4 * sqrt2f32, 2 * sqrt2f32), (4 * sqrt2f32 - 1/10, 2 * sqrt2f32 + 13/10)]
        pos := 8 } = 0 := by
    norm_num [pickIdx, inpC5, ratTruncToNat, ratTrunc]
  rw [hidx]
  rfl

theorem findCand_C_4 :
    findCand inpC5 gridC2 [(2 * sqrt2f32, 2 * sqrt2f32), (4 * sqrt2f32, 2 * sqrt2f32), (4 * sqrt2f32 - 1/10, 2 * sqrt2f32 + 13/10)] (4 * sqrt2f32, 2 * sqrt2f32) 12 1 = (none, 14) := by
  unfold findCand
  rw [if_neg ?_]
  · rfl
  · unfold isValid
    rw [if_neg ?_]
    · exact Bool.false_ne_true
    · unfold inRect
      norm_num [inpC5, sqrt2f32]

theorem prunC5_4 :
    prun inpC5 4 =
      { grid := gridC2
        samples := [(2 * sqrt2f32, 2 * sqrt2f32), (4 * sqrt2f32, 2 * sqrt2f32), (4 * sqrt2f32 - 1/10, 2 * sqrt2f32 + 13/10)]
        active := [(4 * sqrt2f32 - 1/10, 2 * sqrt2f32 + 13/10)]
        pos := 14 } := by
  show pstep inpC5 (prun inpC5 3) = _
  rw [prunC5_3]
  have hfc : findCand inpC5
      ({ grid := gridC2
         samples := [(2 * sqrt2f32, 2 * sqrt2f32), (4 * sqrt2f32, 2 * sqrt2f32), (4 * sqrt2f32 - 1/10, 2 * sqrt2f32 + 13/10)]
         active := [(4 * sqrt2f32, 2 * sqrt2f32), (4 * sqrt2f32 - 1/10, 2 * sqrt2f32 + 13/10)]
         pos := 11 } : PState).grid
      ({ grid := gridC2
         samples := [(2 * sqrt2f32, 2 * sqrt2f32), (4 * sqrt2f32, 2 * sqrt2f32), (4 * sqrt2f32 - 1/10, 2 * sqrt2f32 + 13/10)]
         active := [(4 * sqrt2f32, 2 * sqrt2f32), (4 * sqrt2f32 - 1/10, 2 * sqrt2f32 + 13/10)]
         pos := 11 } : PState).samples
      (pickSample inpC5
        { grid := gridC2
          samples := [(2 * sqrt2f32, 2 * sqrt2f32), (4 * sqrt2f32, 2 * sqrt2f32), (4 * sqrt2f32 - 1/10, 2 * sqrt2f32 + 13/10)]
          active := [(4 * sqrt2f32, 2 * sqrt2f32), (4 * sqrt2f32 - 1/10, 2 * sqrt2f32 + 13/10)]
          pos := 11 })
      (({ grid := gridC2
          samples := [(2 * sqrt2f32, 2 * sqrt2f32), (4 * sqrt2f32, 2 * sqrt2f32), (4 * sqrt2f32 - 1/10, 2 * sqrt2f32 + 13/10)]
          active := [(4 * sqrt2f32, 2 * sqrt2f32), (4 * sqrt2f32 - 1/10, 2 * sqrt2f32 + 13/10)]
          pos := 11 } : PState).pos + 1) inpC5.k = (none, 14) := by
    have hpick : pickSample inpC5
        { grid := gridC2
          samples := [(2 * sqrt2f32, 2 * sqrt2f32), (4 * sqrt2f32, 2 * sqrt2f32), (4 * sqrt2f32 - 1/10, 2 * sqrt2f32 + 13/10)]
          active := [(4 * sqrt2f32, 2 * sqrt2f32), (4 * sqrt2f32 - 1/10, 2 * sqrt2f32 + 13/10)]
          pos := 11 } = (4 * sqrt2f32, 2 * sqrt2f32) := by
      norm_num [pickSample, pickIdx, inpC5, ratTruncToNat, ratTrunc]
    rw [hpick]
    exact findCand_C_4
  rw [pstep_eq_reject (by simp) hfc]
  have hidx : pickIdx inpC5
      { grid := gridC2
        samples := [(2 * sqrt2f32, 2 * sqrt2f32), (4 * sqrt2f32, 2 * sqrt2f32), (4 * sqrt2f32 - 1/10, 2 * sqrt2f32 + 13/10)]
        active := [(4 * sqrt2f32, 2 * sqrt2f32), (4 * sqrt2f32 - 1/10, 2 * sqrt2f32 + 13/10)]
        pos := 11 } = 0 := by
    norm_num [pickIdx, inpC5, ratTruncToNat, ratTrunc]
  rw [hidx]
  rfl

theorem findCand_C_5 :
    findCand inpC5 gridC2 [(2 * sqrt2f32, 2 * sqrt2f32), (4 * sqrt2f32, 2 * sqrt2f32), (4 * sqrt2f32 - 1/10, 2 * sqrt2f32 + 13/10)] (4 * sqrt2f32 - 1/10, 2 * sqrt2f32 + 13/10) 15 1 = (none, 17) := by
  unfold findCand
  rw [if_neg ?_]
  · rfl
  · unfold isValid
    rw [if_neg ?_]
    · exact Bool.false_ne_true
    · unfold inRect
      norm_num [inpC5, sqrt2f32]

theorem prunC5_5 :
    prun inpC5 5 =
      { grid := gridC2
        samples := [(2 * sqrt2f32, 2 * sqrt2f32), (4 * sqrt2f32, 2 * sqrt2f32), (4 * sqrt2f32 - 1/10, 2 * sqrt2f32 + 13/10)]
        active := []
        pos := 17 } := by
  show pstep inpC5 (prun inpC5 4) = _
  rw [prunC5_4]
  have hfc : findCand inpC5
      ({ grid := gridC2
         samples := [(2 * sqrt2f32, 2 * sqrt2f32), (4 * sqrt2f32, 2 * sqrt2f32), (4 * sqrt2f32 - 1/10, 2 * sqrt2f32 + 13/10)]
         active := [(4 * sqrt2f32 - 1/10, 2 * sqrt2f32 + 13/10)]
         pos := 14 } : PState).grid
      ({ grid := gridC2
         samples := [(2 * sqrt2f32, 2 * sqrt2f32), (4 * sqrt2f32, 2 * sqrt2f32), (4 * sqrt2f32 - 1/10, 2 * sqrt2f32 + 13/10)]
         active := [(4 * sqrt2f32 - 1/10, 2 * sqrt2f32 + 13/10)]
         pos := 14 } : PState).samples
      (pickSample inpC5
        { grid := gridC2
          samples := [(2 * sqrt2f32, 2 * sqrt2f32), (4 * sqrt2f32, 2 * sqrt2f32), (4 * sqrt2f32 - 1/10, 2 * sqrt2f32 + 13/10)]
          active := [(4 * sqrt2f32 - 1/10, 2 * sqrt2f32 + 13/10)]
          pos := 14 })
      (({ grid := gridC2
          samples := [(2 * sqrt2f32, 2 * sqrt2f32), (4 * sqrt2f32, 2 * sqrt2f32), (4 * sqrt2f32 - 1/10, 2 * sqrt2f32 + 13/10)]
          active := [(4 * sqrt2f32 - 1/10, 2 * sqrt2f32 + 13/10)]
          pos := 14 } : PState).pos + 1) inpC5.k = (none, 17) := by
    have hpick : pickSample inpC5
        { grid := gridC2
          samples := [(2 * sqrt2f32, 2 * sqrt2f32), (4 * sqrt2f32, 2 * sqrt2f32), (4 * sqrt2f32 - 1/10, 2 * sqrt2f32 + 13/10)]
          active := [(4 * sqrt2f32 - 1/10, 2 * sqrt2f32 + 13/10)]
          pos := 14 } = (4 * sqrt2f32 - 1/10, 2 * sqrt2f32 + 13/10) := by
      norm_num [pickSample, pickIdx, inpC5, ratTruncToNat, ratTrunc]
    rw [hpick]
    exact findCand_C_5
  rw [pstep_eq_reject (by simp) hfc]
  have hidx : pickIdx inpC5
      { grid := gridC2
        samples := [(2 * sqrt2f32, 2 * sqrt2f32), (4 * sqrt2f32, 2 * sqrt2f32), (4 * sqrt2f32 - 1/10, 2 * sqrt2f32 + 13/10)]
        active := [(4 * sqrt2f32 - 1/10, 2 * sqrt2f32 + 13/10)]
        pos := 14 } = 0 := by
    norm_num [pickIdx, inpC5, ratTruncToNat, ratTrunc]
  rw [hidx]
  rfl

theorem psample_C5 : psample inpC5 = [(2 * sqrt2f32, 2 * sqrt2f32), (4 * sqrt2f32, 2 * sqrt2f32), (4 * sqrt2f32 - 1/10, 2 * sqrt2f32 + 13/10)] := by
  unfold psample
  have hfuel : pfuel inpC5 = 5 + 285 := by
    unfold pfuel
    rw [gridCells_inpC5]
  rw [hfuel, prun_stable inpC5 (by rw [prunC5_5]) 285, prunC5_5]

/-- Claim C5 (corrected), counterexample: a full terminating run of the
sampler model (radius 2, `cell = sqrt2f32` — the exact `f32` of
`radius / sqrt 2` — square area of side `4 * cell`, `k = 1`) returns three
accepted samples of which the second and third are at squared distance
`17/10 < radius^2 = 4`: the second sample sits exactly on the closed maximal
boundary admitted by `is_valid`, its unclamped registration index falls in
the wrong grid row, and the neighborhood check of the third candidate misses
it. -/
theorem c5_counterexample :
    psample inpC5 = [(2 * sqrt2f32, 2 * sqrt2f32), (4 * sqrt2f32, 2 * sqrt2f32), (4 * sqrt2f32 - 1/10, 2 * sqrt2f32 + 13/10)] ∧
      distSq (4 * sqrt2f32, 2 * sqrt2f32) (4 * sqrt2f32 - 1/10, 2 * sqrt2f32 + 13/10) < inpC5.radius ^ 2 := by
  refine ⟨psample_C5, ?_⟩
  norm_num [distSq, inpC5, sqrt2f32]

/-!
### Claim C6 counterexample run

Stream draws `1/2, 1/2` then `0` forever; the offset is constantly
`(2*sqrt2f32, 0)`.  The initial point is the area center `A`; the picked
active sample is always `A` (index draw `0`), and the candidate is always
the boundary point `B = A + (2*sqrt2f32, 0)` with `B.x = size.x`.  `B` is
accepted every iteration: its 5×5 neighborhood window never contains its
own (wrong-row) registration slot `12`, so the duplicates already accepted
at `B` itself are never seen.  The active list grows forever and the loop
never terminates. -/
def inpC6 : PoissonInput :=
  { u := fun n => if n < 2 then 1/2 else 0
    off := fun _ _ => (2 * sqrt2f32, 0)
    radius := 2
    size := (4 * sqrt2f32, 4 * sqrt2f32)
    k := 1
    cell := sqrt2f32 }

theorem gridSize_inpC6 : gridSize inpC6 = (4, 4) := by
  norm_num [gridSize, inpC6, sqrt2f32, Prod.ext_iff]
  all_goals decide

theorem gridCells_inpC6 : gridCells inpC6 = 16 := by
  unfold gridCells
  rw [gridSize_inpC6]
  decide

theorem cellCoord_C6_A : cellCoord inpC6 (2 * sqrt2f32, 2 * sqrt2f32) = (2, 2) := by
  norm_num [cellCoord, inpC6, ratTruncToNat, ratTrunc, sqrt2f32, Prod.ext_iff]
  all_goals decide

theorem cellIdx_C6_A : cellIdx inpC6 (2 * sqrt2f32, 2 * sqrt2f32) = 10 := by
  unfold cellIdx
  rw [cellCoord_C6_A, gridSize_inpC6]
  decide

theorem cellCoord_C6_B : cellCoord inpC6 (4 * sqrt2f32, 2 * sqrt2f32) = (4, 2) := by
  norm_num [cellCoord, inpC6, ratTruncToNat, ratTrunc, sqrt2f32, Prod.ext_iff]
  all_goals decide

theorem cellIdx_C6_B : cellIdx inpC6 (4 * sqrt2f32, 2 * sqrt2f32) = 12 := by
  unfold cellIdx
  rw [cellCoord_C6_B, gridSize_inpC6]
  decide

theorem readIdxs_C6_B : readIdxs inpC6 (4 * sqrt2f32, 2 * sqrt2f32) = [2, 3, 6, 7, 10, 11, 14, 15] := by
  unfold readIdxs
  rw [cellCoord_C6_B, gridSize_inpC6]
  decide

theorem initC6_eq : ((inpC6.u 0 * inpC6.size.1, inpC6.u 1 * inpC6.size.2) : ℚ × ℚ) =
    (2 * sqrt2f32, 2 * sqrt2f32) := by
  norm_num [inpC6, sqrt2f32, Prod.ext_iff]

theorem gridC6_getD (m idx : ℕ) :
    (gridC0.set 12 (some m)).getD idx none =
      if idx = 12 then some m else if idx = 10 then some 0 else none := by
  by_cases h : idx = 12
  · subst h
    rw [getD_set_self _ _ _ _ (by simp [gridC0])]
    simp
  · rw [getD_set_ne _ _ _ _ _ (fun he => h he.symm), gridC0_getD]
    simp [h]

theorem isValid_C6_B0 (l : List (ℚ × ℚ)) :
    isValid inpC6 gridC0 ((2 * sqrt2f32, 2 * sqrt2f32) :: l) (4 * sqrt2f32, 2 * sqrt2f32) = true := by
  unfold isValid
  rw [if_pos (by norm_num [inRect, inpC6, sqrt2f32]), readIdxs_C6_B]
  simp only [List.all_cons, List.all_nil, Bool.and_eq_true, gridC0_getD]
  norm_num [distSq, inpC6, sqrt2f32]

theorem isValid_C6_Bm (m : ℕ) (l : List (ℚ × ℚ)) :
    isValid inpC6 (gridC0.set 12 (some m)) ((2 * sqrt2f32, 2 * sqrt2f32) :: l) (4 * sqrt2f32, 2 * sqrt2f32) = true := by
  unfold isValid
  rw [if_pos (by norm_num [inRect, inpC6, sqrt2f32]), readIdxs_C6_B]
  simp only [List.all_cons, List.all_nil, Bool.and_eq_true, gridC6_getD]
  norm_num [distSq, inpC6, sqrt2f32]

/-- The closed form of the diverging run: after `n` iterations the grid has
the wrong-row slot 12 holding the index of the latest copy of `B`, the
samples and active lists are `A` followed by `n` copies of `B`, and the
stream position is `2 + 3*n`. -/
def stateC6 (n : ℕ) : PState :=
  match n with
  | 0 =>
    { grid := gridC0
      samples := [(2 * sqrt2f32, 2 * sqrt2f32)]
      active := [(2 * sqrt2f32, 2 * sqrt2f32)]
      pos := 2 }
  | m + 1 =>
    { grid := gridC0.set 12 (some (m + 1))
      samples := (2 * sqrt2f32, 2 * sqrt2f32) :: List.replicate (m + 1) (4 * sqrt2f32, 2 * sqrt2f32)
      active := (2 * sqrt2f32, 2 * sqrt2f32) :: List.replicate (m + 1) (4 * sqrt2f32, 2 * sqrt2f32)
      pos := 2 + 3 * (m + 1) }

theorem stateC6_zero :
    stateC6 0 =
      { grid := gridC0
        samples := [(2 * sqrt2f32, 2 * sqrt2f32)]
        active := [(2 * sqrt2f32, 2 * sqrt2f32)]
        pos := 2 } := rfl

theorem stateC6_succ (m : ℕ) :
    stateC6 (m + 1) =
      { grid := gridC0.set 12 (some (m + 1))
        samples := (2 * sqrt2f32, 2 * sqrt2f32) :: List.replicate (m + 1) (4 * sqrt2f32, 2 * sqrt2f32)
        active := (2 * sqrt2f32, 2 * sqrt2f32) :: List.replicate (m + 1) (4 * sqrt2f32, 2 * sqrt2f32)
        pos := 2 + 3 * (m + 1) } := rfl

theorem prunC6_0 : prun inpC6 0 = stateC6 0 := by
  show pInit inpC6 = _
  rw [stateC6_zero]
  unfold pInit gridC0
  rw [gridCells_inpC6, initC6_eq, cellIdx_C6_A]

theorem pstepC6 (n : ℕ) : pstep inpC6 (stateC6 n) = stateC6 (n + 1) := by
  cases n with
  | zero =>
    rw [stateC6_zero, stateC6_succ 0]
    have hfc : findCand inpC6
        ({ grid := gridC0
           samples := [(2 * sqrt2f32, 2 * sqrt2f32)]
           active := [(2 * sqrt2f32, 2 * sqrt2f32)]
           pos := 2 } : PState).grid
        ({ grid := gridC0
           samples := [(2 * sqrt2f32, 2 * sqrt2f32)]
           active := [(2 * sqrt2f32, 2 * sqrt2f32)]
           pos := 2 } : PState).samples
        (pickSample inpC6
          { grid := gridC0
            samples := [(2 * sqrt2f32, 2 * sqrt2f32)]
            active := [(2 * sqrt2f32, 2 * sqrt2f32)]
            pos := 2 })
        (({ grid := gridC0
            samples := [(2 * sqrt2f32, 2 * sqrt2f32)]
            active := [(2 * sqrt2f32, 2 * sqrt2f32)]
            pos := 2 } : PState).pos + 1) inpC6.k = (some (4 * sqrt2f32, 2 * sqrt2f32), 5) := by
      have hpick : pickSample inpC6
          { grid := gridC0
            samples := [(2 * sqrt2f32, 2 * sqrt2f32)]
            active := [(2 * sqrt2f32, 2 * sqrt2f32)]
            pos := 2 } = (2 * sqrt2f32, 2 * sqrt2f32) := by
        norm_num [pickSample, pickIdx, inpC6, ratTruncToNat, ratTrunc]
      rw [hpick]
      show findCand inpC6 gridC0 [(2 * sqrt2f32, 2 * sqrt2f32)] (2 * sqrt2f32, 2 * sqrt2f32) 3 1 = (some (4 * sqrt2f32, 2 * sqrt2f32), 5)
      unfold findCand
      have hcand : (((2 * sqrt2f32, 2 * sqrt2f32) : ℚ × ℚ).1 + (inpC6.off (inpC6.u 3) (inpC6.u (3 + 1))).1,
          ((2 * sqrt2f32, 2 * sqrt2f32) : ℚ × ℚ).2 + (inpC6.off (inpC6.u 3) (inpC6.u (3 + 1))).2) =
          ((4 * sqrt2f32, 2 * sqrt2f32) : ℚ × ℚ) := by
        norm_num [inpC6, Prod.ext_iff]
        ring
      rw [hcand, if_pos (isValid_C6_B0 [])]
    rw [pstep_eq_accept (by simp) hfc]
    unfold pAccept
    rw [cellIdx_C6_B]
    norm_num [List.replicate_succ, List.replicate_zero]
  | succ m =>
    rw [stateC6_succ m, stateC6_succ (m + 1)]
    have hfc : findCand inpC6
        ({ grid := gridC0.set 12 (some (m + 1))
           samples := (2 * sqrt2f32, 2 * sqrt2f32) :: List.replicate (m + 1) (4 * sqrt2f32, 2 * sqrt2f32)
           active := (2 * sqrt2f32, 2 * sqrt2f32) :: List.replicate (m + 1) (4 * sqrt2f32, 2 * sqrt2f32)
           pos := 2 + 3 * (m + 1) } : PState).grid
        ({ grid := gridC0.set 12 (some (m + 1))
           samples := (2 * sqrt2f32, 2 * sqrt2f32) :: List.replicate (m + 1) (4 * sqrt2f32, 2 * sqrt2f32)
           active := (2 * sqrt2f32, 2 * sqrt2f32) :: List.replicate (m + 1) (4 * sqrt2f32, 2 * sqrt2f32)
           pos := 2 + 3 * (m + 1) } : PState).samples
        (pickSample inpC6
          { grid := gridC0.set 12 (some (m + 1))
            samples := (2 * sqrt2f32, 2 * sqrt2f32) :: List.replicate (m + 1) (4 * sqrt2f32, 2 * sqrt2f32)
            active := (2 * sqrt2f32, 2 * sqrt2f32) :: List.replicate (m + 1) (4 * sqrt2f32, 2 * sqrt2f32)
            pos := 2 + 3 * (m + 1) })
        (({ grid := gridC0.set 12 (some (m + 1))
            samples := (2 * sqrt2f32, 2 * sqrt2f32) :: List.replicate (m + 1) (4 * sqrt2f32, 2 * sqrt2f32)
            active := (2 * sqrt2f32, 2 * sqrt2f32) :: List.replicate (m + 1) (4 * sqrt2f32, 2 * sqrt2f32)
            pos := 2 + 3 * (m + 1) } : PState).pos + 1) inpC6.k =
        (some (4 * sqrt2f32, 2 * sqrt2f32), 2 + 3 * (m + 1) + 1 + 2) := by
      have hpick : pickSample inpC6
          { grid := gridC0.set 12 (some (m + 1))
            samples := (2 * sqrt2f32, 2 * sqrt2f32) :: List.replicate (m + 1) (4 * sqrt2f32, 2 * sqrt2f32)
            active := (2 * sqrt2f32, 2 * sqrt2f32) :: List.replicate (m + 1) (4 * sqrt2f32, 2 * sqrt2f32)
            pos := 2 + 3 * (m + 1) } = (2 * sqrt2f32, 2 * sqrt2f32) := by
        show ((2 * sqrt2f32, 2 * sqrt2f32) :: List.replicate (m + 1) (4 * sqrt2f32, 2 * sqrt2f32)).getD
            (ratTruncToNat (inpC6.u (2 + 3 * (m + 1)) *
              ((((2 * sqrt2f32, 2 * sqrt2f32) :: List.replicate (m + 1) (4 * sqrt2f32, 2 * sqrt2f32)).length : ℕ) : ℚ))) (0, 0) = (2 * sqrt2f32, 2 * sqrt2f32)
        have hu : inpC6.u (2 + 3 * (m + 1)) = 0 := by
          show (if 2 + 3 * (m + 1) < 2 then (1 : ℚ)/2 else 0) = 0
          rw [if_neg (by omega)]
        rw [hu]
        norm_num [ratTruncToNat, ratTrunc]
      rw [hpick]
      show findCand inpC6 (gridC0.set 12 (some (m + 1)))
          ((2 * sqrt2f32, 2 * sqrt2f32) :: List.replicate (m + 1) (4 * sqrt2f32, 2 * sqrt2f32)) (2 * sqrt2f32, 2 * sqrt2f32) (2 + 3 * (m + 1) + 1) 1 =
        (some (4 * sqrt2f32, 2 * sqrt2f32), 2 + 3 * (m + 1) + 1 + 2)
      unfold findCand
      have hcand : (((2 * sqrt2f32, 2 * sqrt2f32) : ℚ × ℚ).1 +
          (inpC6.off (inpC6.u (2 + 3 * (m + 1) + 1)) (inpC6.u (2 + 3 * (m + 1) + 1 + 1))).1,
          ((2 * sqrt2f32, 2 * sqrt2f32) : ℚ × ℚ).2 +
          (inpC6.off (inpC6.u (2 + 3 * (m + 1) + 1)) (inpC6.u (2 + 3 * (m + 1) + 1 + 1))).2) =
          ((4 * sqrt2f32, 2 * sqrt2f32) : ℚ × ℚ) := by
        norm_num [inpC6, Prod.ext_iff]
        ring
      rw [hcand,
        if_pos (isValid_C6_Bm (m + 1) (List.replicate (m + 1) (4 * sqrt2f32, 2 * sqrt2f32)))]
    rw [pstep_eq_accept (by simp) hfc]
    unfold pAccept
    rw [cellIdx_C6_B]
    simp only [PState.mk.injEq]
    refine ⟨?_, ?_, ?_, ?_⟩
    · rw [List.set_set]
      simp
    · rw [List.cons_append, ← List.replicate_succ']
    · rw [List.cons_append, ← List.replicate_succ']
    · omega

theorem prunC6 : ∀ n, prun inpC6 n = stateC6 n := by
  intro n
  induction n with
  | zero => exact prunC6_0
  | succ m ih =>
    show pstep inpC6 (prun inpC6 m) = _
    rw [ih, pstepC6]

/-- Claim C6 (corrected), counterexample: with radius 2,
`cell = sqrt2f32` (the exact `f32` of `radius / sqrt 2`), a square area of
side `4 * cell` and `k = 1`, there is a random stream on which the sampler
model never terminates: the same boundary candidate — accepted because its
5×5 neighborhood window misses its own out-of-row registration slot — is
re-accepted forever, the active list is never empty after any number of
iterations, and by iteration 17 the accepted-sample count already exceeds
the number of grid cells, refuting the claimed bound on the accepted-sample
count. -/
theorem c6_counterexample :
    (∀ n : ℕ, (prun inpC6 n).active ≠ []) ∧
      gridCells inpC6 < (prun inpC6 17).samples.length := by
  constructor
  · intro n
    rw [prunC6]
    cases n with
    | zero =>
      rw [stateC6_zero]
      simp
    | succ m =>
      rw [stateC6_succ]
      simp
  · have h : prun inpC6 17 = stateC6 (16 + 1) := prunC6 17
    rw [h, stateC6_succ 16, gridCells_inpC6]
    simp

/-!
### Claim C10: grid index bounds
-/

/-- Claim C10, counterexample: `is_valid` accepts the far corner
`(size.x, size.y)` of the closed area rectangle (here with
`size = 4*sqrt2f32` and `cell = sqrt2f32`, so the corner's cell coordinate
is exactly `grid_size = (4, 4)`), yet the unclamped write index
`coord.y * grid_size.x + coord.x = 20` is not below the grid vector's
length `16`: the grid write for this accepted candidate is out of bounds
(an index panic in the source). -/
theorem c10_counterexample :
    isValid inpC6 (List.replicate (gridCells inpC6) none) []
        (4 * sqrt2f32, 4 * sqrt2f32) = true ∧
      gridCells inpC6 ≤ cellIdx inpC6 (4 * sqrt2f32, 4 * sqrt2f32) := by
  constructor
  · unfold isValid
    rw [if_pos (by norm_num [inRect, inpC6, sqrt2f32])]
    rw [List.all_eq_true]
    intro idx hidx
    simp [getD_replicate_none]
  · have h : cellIdx inpC6 (4 * sqrt2f32, 4 * sqrt2f32) = 20 := by
      have hc : cellCoord inpC6 (4 * sqrt2f32, 4 * sqrt2f32) = (4, 4) := by
        norm_num [cellCoord, inpC6, ratTruncToNat, ratTrunc, sqrt2f32, Prod.ext_iff]
        all_goals decide
      unfold cellIdx
      rw [hc, gridSize_inpC6]
      decide
    rw [gridCells_inpC6, h]
    decide

/-- Claim C10 (corrected): all grid indices produced by the 5×5 neighborhood
read loop of `is_valid` are strictly below the grid vector's length (its axis
ranges are clamped to `grid_size - 1`, so reads never panic when both grid
dimensions are at least 1); the unclamped write index
`coord.y * grid_size.x + coord.x` of an accepted candidate is strictly below
the grid length only under the additional hypothesis that the candidate's
cell coordinate is componentwise strictly below `grid_size` — which fails
for accepted candidates on the closed maximal boundary
(`c10_counterexample`). -/
theorem c10_grid_index_bounds (inp : PoissonInput)
    (hg1 : 1 ≤ (gridSize inp).1) (hg2 : 1 ≤ (gridSize inp).2) :
    (∀ cand : ℚ × ℚ, ∀ idx ∈ readIdxs inp cand, idx < gridCells inp) ∧
      (∀ cand : ℚ × ℚ, (cellCoord inp cand).1 < (gridSize inp).1 →
        (cellCoord inp cand).2 < (gridSize inp).2 →
          cellIdx inp cand < gridCells inp) := by
  constructor
  · intro cand idx hidx
    unfold readIdxs at hidx
    simp only [List.mem_flatMap, List.mem_map, List.mem_range] at hidx
    obtain ⟨dy, hdy, dx, hdx, heq⟩ := hidx
    unfold gridCells
    rw [← heq]
    apply flat_idx_lt
    · omega
    · omega
  · intro cand h1 h2
    unfold cellIdx gridCells
    exact flat_idx_lt h1 h2

theorem c10_witness :
    1 ≤ (gridSize inpW).1 ∧ 1 ≤ (gridSize inpW).2 ∧
      cellIdx inpW (sqrt2f32, sqrt2f32) < gridCells inpW := by
  have h := c10_grid_index_bounds inpW
    (by rw [gridSize_inpW]; decide) (by rw [gridSize_inpW]; decide)
  refine ⟨by rw [gridSize_inpW]; decide, by rw [gridSize_inpW]; decide, ?_⟩
  exact h.2 (sqrt2f32, sqrt2f32)
    (by rw [cellCoord_W_A, gridSize_inpW]; decide)
    (by rw [cellCoord_W_A, gridSize_inpW]; decide)
